import Mathlib

/-!
Verification of the CrowdCompanyBot Memory 2.0 subsystem.

This file shallowly embeds the memory lifecycle engine
(`src/file_structure.py`, `src/memory_manager_v2.py`,
`src/importance_scorer.py`, `src/summarizer.py`, `src/context_loader.py`,
`src/cleanup_service.py`) and proves or refutes the frozen behavioural
claims about it.

Modelling conventions:
- Instants (`datetime`) are integers counting seconds since the Unix epoch
  (1970-01-01 00:00:00); calendar days are integers counting days since
  that epoch (which was a Thursday).  `timedelta(days=k)` is `k * 86400`.
- The text-completion service (`llm_client.send_message`) is an opaque
  oracle `Llm := String → Except Unit String`; `.error` models a raised
  exception (network error, timeout) at the call site.
- File contents are `String`s; a file's `st_size` is its character count
  (exact for the ASCII contents used in the concrete scenarios).
- Python `str.lower`/`str.strip` are modelled for ASCII case and ASCII
  whitespace; no decision point of any claim depends on non-ASCII casing.
-/

namespace CB

/-! ## Calendar arithmetic

Faithful integer versions of the civil-calendar conversions underlying
Python's `datetime` / `strptime` / `isocalendar`, using the standard
(Howard Hinnant) day-count algorithms.  All divisions take positive
divisors on the ranges used, where Lean's `Int` division (`ediv`)
coincides with Python's floor division. -/

def isLeap (y : Int) : Bool :=
  y % 4 == 0 && (y % 100 != 0 || y % 400 == 0)

def daysInMonth (y m : Int) : Int :=
  if m == 2 then (if isLeap y then 29 else 28)
  else if m == 4 || m == 6 || m == 9 || m == 11 then 30
  else 31

/-- Days since 1970-01-01 of the civil date `(y, m, d)`. -/
def daysFromCivil (y m d : Int) : Int :=
  let y' := y - (if m ≤ 2 then 1 else 0)
  let era := Int.fdiv y' 400
  let yoe := y' - era * 400
  let mp := if m > 2 then m - 3 else m + 9
  let doy := (153 * mp + 2) / 5 + d - 1
  let doe := yoe * 365 + yoe / 4 - yoe / 100 + doy
  era * 146097 + doe - 719468

/-- Civil date `(y, m, d)` of the day `z` (days since 1970-01-01). -/
def civilFromDays (z : Int) : Int × Int × Int :=
  let z' := z + 719468
  let era := Int.fdiv z' 146097
  let doe := z' - era * 146097
  let yoe := (doe - doe / 1460 + doe / 36524 - doe / 146096) / 365
  let y := yoe + era * 400
  let doy := doe - (365 * yoe + yoe / 4 - yoe / 100)
  let mp := (5 * doy + 2) / 153
  let d := doy - (153 * mp + 2) / 5 + 1
  let m := mp + (if mp < 10 then 3 else -9)
  (y + (if m ≤ 2 then 1 else 0), m, d)

/-- Day of week of day `z`, with Monday = 0 (1970-01-01 was a Thursday). -/
def dayOfWeekMon (z : Int) : Int :=
  (z + 3) % 7

/-- ISO-8601 `(year, week)` of day `z`, as Python's `date.isocalendar()`:
the ISO year/week of the Thursday lying in `z`'s Monday-based week. -/
def isoYearWeek (z : Int) : Int × Int :=
  let thu := z + 3 - dayOfWeekMon z
  let y := (civilFromDays thu).1
  let jan1 := daysFromCivil y 1 1
  (y, (thu - jan1) / 7 + 1)

/-! ## String utilities

Character-level models of the Python string operations used by the code
(`split("\n")`, `startswith`, `strip`, `lower`, `in`, zero-padded
formatting, lexicographic path sorting). -/

def pad2 (n : Int) : String :=
  if 0 ≤ n && n < 10 then "0" ++ toString n else toString n

def isPyWs (c : Char) : Bool :=
  c == ' ' || c == '\t' || c == '\n' || c == '\r' ||
  c == Char.ofNat 11 || c == Char.ofNat 12

/-- Python `str.strip()` (ASCII whitespace). -/
def pyStrip (s : String) : String :=
  String.mk (((s.data.dropWhile isPyWs).reverse.dropWhile isPyWs).reverse)

/-- Python `str.lower()` (ASCII case). -/
def pyLower (s : String) : String :=
  String.mk (s.data.map Char.toLower)

/-- Python `needle in hay` substring test. -/
def strContains (hay needle : String) : Bool :=
  (List.range (hay.data.length + 1)).any
    (fun i => needle.data.isPrefixOf (hay.data.drop i))

/-- Python `hay.startswith(pre)`. -/
def strStarts (hay pre : String) : Bool :=
  pre.data.isPrefixOf hay.data

/-- Python `hay.endswith(suf)`. -/
def strEnds (hay suf : String) : Bool :=
  suf.data.reverse.isPrefixOf hay.data.reverse

def splitAux (sep : Char) : List Char → List Char → List String
  | [], acc => [String.mk acc.reverse]
  | c :: cs, acc =>
    if c == sep then String.mk acc.reverse :: splitAux sep cs []
    else splitAux sep cs (c :: acc)

/-- Python `s.split(c)` for a one-character separator. -/
def splitChar (s : String) (sep : Char) : List String :=
  splitAux sep s.data []

/-- Python `"\n".join(l)` (and `"/"`-joins etc.). -/
def joinSep (sep : String) : List String → String
  | [] => ""
  | [s] => s
  | s :: rest => s ++ sep ++ joinSep sep rest

/-- Lexicographic comparison of strings by character code, as Python
compares the path strings of files in one directory. -/
def lexLt : List Char → List Char → Bool
  | [], [] => false
  | [], _ :: _ => true
  | _ :: _, [] => false
  | a :: as_, b :: bs =>
    if a.val < b.val then true
    else if b.val < a.val then false
    else lexLt as_ bs

def strLt (a b : String) : Bool := lexLt a.data b.data

def insertAscBy {α : Type} (key : α → String) (x : α) : List α → List α
  | [] => [x]
  | y :: ys =>
    if strLt (key y) (key x) then y :: insertAscBy key x ys
    else x :: y :: ys

/-- Stable insertion sort, ascending by a string key. -/
def sortAscBy {α : Type} (key : α → String) : List α → List α
  | [] => []
  | x :: xs => insertAscBy key x (sortAscBy key xs)

def insertAscByInt {α : Type} (key : α → Int) (x : α) : List α → List α
  | [] => [x]
  | y :: ys =>
    if key y ≤ key x then y :: insertAscByInt key x ys
    else x :: y :: ys

/-- Stable insertion sort, ascending by an integer key (`list.sort(key=...)`). -/
def sortAscByInt {α : Type} (key : α → Int) : List α → List α
  | [] => []
  | x :: xs => insertAscByInt key x (sortAscByInt key xs)

/-- Python `int(s)` on an all-digit string (no sign), `none` when `s` would
make `int` raise `ValueError`. -/
def parseNatDigits (s : String) : Option Int :=
  if s.data ≠ [] && s.data.all (fun c => c.isDigit) then
    some (s.data.foldl (fun acc c => acc * 10 + (c.toNat - 48 : Int)) 0)
  else none

/-! ## Date formatting and parsing as used by the code -/

/-- `date.strftime("%Y%m%d")` of day `z` (years in 1000..9999). -/
def dateStem (z : Int) : String :=
  let (y, m, d) := civilFromDays z
  toString y ++ pad2 m ++ pad2 d

/-- `date.strftime("%d.%m.%Y")`. -/
def dateDMY (z : Int) : String :=
  let (y, m, d) := civilFromDays z
  pad2 d ++ "." ++ pad2 m ++ "." ++ toString y

/-- `datetime.strftime("%Y-%m-%d %H:%M:%S")` of an instant in seconds. -/
def formatTimestamp (t : Int) : String :=
  let z := Int.fdiv t 86400
  let (y, m, d) := civilFromDays z
  let secs := t % 86400
  toString y ++ "-" ++ pad2 m ++ "-" ++ pad2 d ++ " " ++
    pad2 (secs / 3600) ++ ":" ++ pad2 (secs % 3600 / 60) ++ ":" ++ pad2 (secs % 60)

/-- `datetime.strftime("%Y-%m-%d")`. -/
def formatYMD (z : Int) : String :=
  let (y, m, d) := civilFromDays z
  toString y ++ "-" ++ pad2 m ++ "-" ++ pad2 d

/-- `datetime.strptime(stem, "%Y%m%d")`: eight digits forming a valid
civil date; returns the day number. `none` models the `ValueError`. -/
def parseDailyStem (stem : String) : Option Int :=
  match stem.data with
  | [y1, y2, y3, y4, m1, m2, d1, d2] =>
    if [y1, y2, y3, y4, m1, m2, d1, d2].all (fun c => c.isDigit) then
      let num := fun (c : Char) => (c.toNat - 48 : Int)
      let y := num y1 * 1000 + num y2 * 100 + num y3 * 10 + num y4
      let m := num m1 * 10 + num m2
      let d := num d1 * 10 + num d2
      if 1 ≤ m && m ≤ 12 && 1 ≤ d && d ≤ daysInMonth y m then
        some (daysFromCivil y m d)
      else none
    else none
  | _ => none

/-- Python filename stem: the name with its final `.`-suffix removed. -/
def stemOf (name : String) : String :=
  match (splitChar name '.').reverse with
  | [] => name
  | [_] => name
  | _ :: restRev => joinSep "." restRev.reverse

/-! ## Importance Scorer (`src/importance_scorer.py`)

The completion service call of `_score_with_llm` is abstracted at its
parse boundary: an outcome is either `.error ()` — the call raised
(network error, `json.JSONDecodeError`, or a `TypeError` while comparing
non-numeric fields, all of which the source catches identically and maps
to the fallback) — or `.ok raw` with the parsed JSON object `raw`, whose
fields may be missing (`none`). -/

/-- A parsed LLM scoring response (`score_data` in `_score_with_llm`). -/
structure RawScore where
  score : Option Int
  frequency_points : Option Int
  recency_points : Option Int
  explicit_points : Option Int
  relevance_points : Option Int
  reasoning : Option String
  retention_recommendation : Option String
deriving DecidableEq

/-- The `context` dict argument of `score_conversation` (`dict.get`
semantics: a missing key yields the caller's default). -/
structure ScoreCtx where
  frequency_count : Option Int
  timestamp : Option String
  days_since_first_mention : Option Int
deriving DecidableEq

/-- The score dictionary returned by `score_conversation`. -/
structure ScoreResult where
  score : Int
  frequency_points : Int
  recency_points : Int
  explicit_points : Int
  relevance_points : Int
  reasoning : String
  retention_recommendation : String
deriving DecidableEq

/-- `ImportanceScorer.IMPORTANCE_KEYWORDS`. -/
def IMPORTANCE_KEYWORDS : List String :=
  ["merke dir", "wichtig", "entscheidend", "nie vergessen",
   "projektentscheidung", "strategie", "plan", "ziel",
   "erinnere mich", "denk dran", "notiere"]

/-- `ImportanceScorer.TEMPORARY_KEYWORDS`. -/
def TEMPORARY_KEYWORDS : List String :=
  ["tv-programm", "fernsehprogramm", "tv heute", "läuft heute",
   "wetter", "wettervorhersage", "temperatur heute",
   "nachrichten heute", "aktuell", "gerade", "jetzt"]

/-- `ImportanceScorer._is_temporary_fact`. -/
def is_temporary_fact (text : String) : Bool :=
  let tl := pyLower text
  TEMPORARY_KEYWORDS.any (fun kw => strContains tl kw)

/-- `ImportanceScorer.detect_explicit_markers`. -/
def detect_explicit_markers (text : String) : Int :=
  let tl := pyLower text
  let found := IMPORTANCE_KEYWORDS.filter (fun kw => strContains tl kw)
  if found.length ≥ 2 then 2
  else if found.length == 1 then 1
  else 0

/-- `ImportanceScorer.get_retention_strategy`. -/
def get_retention_strategy (score : Int) : String :=
  if score ≥ 8 then "Persistent in memory.md + important/preferences.md"
  else if score ≥ 5 then "Behalten in Wochen-/Monatszusammenfassungen"
  else if score ≥ 2 then "Nach 7 Tagen archivieren"
  else "Nach 24h entfernen"

/-- `ImportanceScorer._fallback_score`. -/
def fallback_score (snippet : String) (context : ScoreCtx) : ScoreResult :=
  let fc := context.frequency_count.getD 0
  let frequency_points : Int :=
    if fc ≥ 10 then 3 else if fc ≥ 4 then 2 else if fc ≥ 2 then 1 else 0
  let days_since := context.days_since_first_mention.getD 999
  let recency_points : Int :=
    if days_since ≤ 7 then 2 else if days_since ≤ 30 then 1 else 0
  let explicit_points := detect_explicit_markers snippet
  let sl := pyLower snippet
  let relevance_points : Int :=
    if ["mag nicht", "interessiere mich nicht",
        "liebe", "hasse", "bevorzuge"].any (fun kw => strContains sl kw) then 3
    else if ["projekt", "ziel", "plan",
             "vorhabe", "möchte"].any (fun kw => strContains sl kw) then 2
    else if ["ich", "mein", "meine"].any (fun kw => strContains sl kw) then 1
    else 0
  let total := frequency_points + recency_points + explicit_points + relevance_points
  { score := total
    frequency_points := frequency_points
    recency_points := recency_points
    explicit_points := explicit_points
    relevance_points := relevance_points
    reasoning := "Regelbasierter Fallback (LLM nicht verfügbar)"
    retention_recommendation := get_retention_strategy total }

/-- `ImportanceScorer._validate_score`: all seven fields present and each
numeric field within its documented range.  (Note: the sum relation
between `score` and the four sub-scores is *not* checked.) -/
def validate_score (r : RawScore) : Bool :=
  r.score.isSome && r.frequency_points.isSome && r.recency_points.isSome &&
  r.explicit_points.isSome && r.relevance_points.isSome &&
  r.reasoning.isSome && r.retention_recommendation.isSome &&
  (0 ≤ r.score.getD 0 && r.score.getD 0 ≤ 10) &&
  (0 ≤ r.frequency_points.getD 0 && r.frequency_points.getD 0 ≤ 3) &&
  (0 ≤ r.recency_points.getD 0 && r.recency_points.getD 0 ≤ 2) &&
  (0 ≤ r.explicit_points.getD 0 && r.explicit_points.getD 0 ≤ 2) &&
  (0 ≤ r.relevance_points.getD 0 && r.relevance_points.getD 0 ≤ 3)

/-- `ImportanceScorer.score_conversation`.  `llmOutcome` is the result of
the `_score_with_llm` round-trip (see section header); the returned
dictionary is total — the source catches every exception of the LLM path
and falls back, and the transient-fact fast path precedes the call. -/
def score_conversation (snippet : String) (context : ScoreCtx)
    (llmOutcome : Except Unit RawScore) : ScoreResult :=
  if is_temporary_fact snippet then
    { score := 0, frequency_points := 0, recency_points := 0,
      explicit_points := 0, relevance_points := 0,
      reasoning := "Temporäre Fakten-Anfrage (TV, Wetter, etc.)",
      retention_recommendation := "Nach 24h entfernen" }
  else
    match llmOutcome with
    | .error _ => fallback_score snippet context
    | .ok raw =>
      if validate_score raw then
        { score := raw.score.getD 0
          frequency_points := raw.frequency_points.getD 0
          recency_points := raw.recency_points.getD 0
          explicit_points := raw.explicit_points.getD 0
          relevance_points := raw.relevance_points.getD 0
          reasoning := raw.reasoning.getD ""
          retention_recommendation := raw.retention_recommendation.getD "" }
      else fallback_score snippet context

/-! ## File-system model

A per-user slice of the on-disk hierarchy.  Each tier directory is a
`Dir`: an existence flag (`mkdir` semantics) plus its files in listing
order.  File contents are strings; `mtime` is the modification instant in
seconds.  User addressing (`users/<id>`) lives in `Sys`; the per-user
operations of `FileStructureManager`, `Summarizer`, `ContextLoader` and
`CleanupService` take the user's `UserFS` directly. -/

structure FileEnt where
  name : String
  content : String
  mtime : Int
deriving DecidableEq

structure Dir where
  present : Bool
  files : List FileEnt
deriving DecidableEq

def Dir.empty : Dir := ⟨false, []⟩

def dirFiles (d : Dir) : List FileEnt :=
  if d.present then d.files else []

def dirFind (d : Dir) (n : String) : Option FileEnt :=
  (dirFiles d).find? (fun f => f.name == n)

def dirRead (d : Dir) (n : String) : Option String :=
  (dirFind d n).map (fun f => f.content)

def dirHas (d : Dir) (n : String) : Bool :=
  (dirFind d n).isSome

/-- `path.parent.mkdir(parents=True, exist_ok=True)` followed by
`path.write_text(...)`: creates the directory if needed and
creates/overwrites the file. -/
def dirWrite (d : Dir) (n content : String) (mtime : Int) : Dir :=
  if dirHas d n then
    ⟨true, (dirFiles d).map (fun f => if f.name == n then ⟨n, content, mtime⟩ else f)⟩
  else
    ⟨true, dirFiles d ++ [⟨n, content, mtime⟩]⟩

def dirRemove (d : Dir) (n : String) : Dir :=
  ⟨d.present, (dirFiles d).filter (fun f => !(f.name == n))⟩

/-- `mkdir(exist_ok=True)`. -/
def dirMk (d : Dir) : Dir := ⟨true, dirFiles d⟩

/-- `dir.glob("*.md")`, in the directory's listing order (the OS order of
`glob` is unspecified; the model uses insertion order). -/
def globMd (d : Dir) : List FileEnt :=
  (dirFiles d).filter (fun f => strEnds f.name ".md")

structure UserFS where
  memoryIndex : Option String
  preferences : Option String
  daily : Dir
  weekly : Dir
  monthly : Dir
  yearly : Dir
  archDaily : Dir
  archWeekly : Dir
  archMonthly : Dir
deriving DecidableEq

def emptyUserFS : UserFS :=
  ⟨none, none, Dir.empty, Dir.empty, Dir.empty, Dir.empty,
   Dir.empty, Dir.empty, Dir.empty⟩

/-- The `file_type` argument of `archive_file` (which at every call site
also names the tier the source file lives in). -/
inductive Tier | daily | weekly | monthly
deriving DecidableEq

def sourceDir (u : UserFS) : Tier → Dir
  | .daily => u.daily
  | .weekly => u.weekly
  | .monthly => u.monthly

def archDir (u : UserFS) : Tier → Dir
  | .daily => u.archDaily
  | .weekly => u.archWeekly
  | .monthly => u.archMonthly

def setSourceDir (u : UserFS) (t : Tier) (d : Dir) : UserFS :=
  match t with
  | .daily => { u with daily := d }
  | .weekly => { u with weekly := d }
  | .monthly => { u with monthly := d }

def setArchDir (u : UserFS) (t : Tier) (d : Dir) : UserFS :=
  match t with
  | .daily => { u with archDaily := d }
  | .weekly => { u with archWeekly := d }
  | .monthly => { u with archMonthly := d }

/-! ## `FileStructureManager` (`src/file_structure.py`) -/

/-- `get_daily_file_path`: filename `date.strftime("%Y%m%d") + ".md"`. -/
def daily_file_name (z : Int) : String := dateStem z ++ ".md"

/-- `get_weekly_file_path`: filename `f"{year}-W{week:02d}.md"`. -/
def weekly_file_name (year week : Int) : String :=
  toString year ++ "-W" ++ pad2 week ++ ".md"

/-- `get_monthly_file_path`: filename `f"{year}-{month:02d}.md"`. -/
def monthly_file_name (year month : Int) : String :=
  toString year ++ "-" ++ pad2 month ++ ".md"

/-- `ensure_v2_structure`: idempotently creates all tier directories. -/
def ensure_v2_structure (u : UserFS) : UserFS :=
  { u with daily := dirMk u.daily, weekly := dirMk u.weekly,
           monthly := dirMk u.monthly,
           archDaily := dirMk u.archDaily, archWeekly := dirMk u.archWeekly,
           archMonthly := dirMk u.archMonthly }

/-- `list_daily_files`: all `daily/*.md`; when a date bound is given,
files whose stem does not `strptime` as `%Y%m%d` are skipped and files
outside `[start_date, end_date]` (midnight of the stem against the given
instants) are dropped; the result is sorted newest-first (descending
path order; names are unique, so stability is irrelevant). -/
def list_daily_files (u : UserFS) (start_date end_date : Option Int) :
    List FileEnt :=
  if !u.daily.present then []
  else
    let files := globMd u.daily
    let files :=
      if start_date.isSome || end_date.isSome then
        files.filter (fun f =>
          match parseDailyStem (stemOf f.name) with
          | none => false
          | some z =>
            let fileDate := z * 86400
            !(match start_date with
              | some sd => decide (fileDate < sd)
              | none => false) &&
            !(match end_date with
              | some ed => decide (ed < fileDate)
              | none => false))
      else files
    (sortAscBy (fun f => f.name) files).reverse

/-- `archive_file`: moves a file of tier `t` into `archive/<t>/`;
returns `none` if the source does not exist.  `shutil.move` preserves
the modification time and overwrites an existing destination. -/
def archive_file (u : UserFS) (t : Tier) (name : String) :
    UserFS × Option String :=
  match dirFind (sourceDir u t) name with
  | none => (u, none)
  | some f =>
    let u1 := setSourceDir u t (dirRemove (sourceDir u t) name)
    let u2 := setArchDir u1 t (dirWrite (archDir u1 t) name f.content f.mtime)
    (u2, some name)

/-- Outcome of one `gzip` copy in `compress_file`: either the complete
compressed bytes, or an exception after `partial` bytes were already
written to the destination. -/
inductive GzipOutcome
  | ok (compressed : String)
  | fail (partialContent : String)
deriving DecidableEq

/-- The behaviour of the gzip copy, as a function of the source bytes. -/
def Gzip : Type := String → GzipOutcome

/-- `compress_file`: writes `<name>.gz` *directly at its final name*,
then (only when the copy raised no exception) unlinks the original and
returns the compressed name; on failure returns `none` with the original
intact — but with whatever partial `.gz` the failed copy produced left
in place. -/
def compress_file (d : Dir) (name : String) (gz : Gzip) (now : Int) :
    Dir × Option String :=
  match dirFind d name with
  | none => (d, none)
  | some f =>
    match gz f.content with
    | .ok c => (dirRemove (dirWrite d (name ++ ".gz") c now) name,
                some (name ++ ".gz"))
    | .fail p => (dirWrite d (name ++ ".gz") p now, none)

/-- `find_old_archives`: plaintext `*.md` files across the three archive
subtrees whose mtime is older than `days` days before `now`, in
daily/weekly/monthly then listing order. -/
def find_old_archives (u : UserFS) (now : Int) (days : Int) :
    List (Tier × String) :=
  let cutoff := now - days * 86400
  ([Tier.daily, Tier.weekly, Tier.monthly].map (fun t =>
    (globMd (archDir u t)).filterMap (fun f =>
      if f.mtime < cutoff then some (t, f.name) else none))).flatten

/-- Total byte size of a user's tree (`get_structure_stats`,
`total_size_bytes`): every file under the user directory. -/
def totalSizeBytes (u : UserFS) : Int :=
  (match u.memoryIndex with | some c => (c.length : Int) | none => 0) +
  (match u.preferences with | some c => (c.length : Int) | none => 0) +
  ([u.daily, u.weekly, u.monthly, u.yearly,
    u.archDaily, u.archWeekly, u.archMonthly].map (fun d =>
      ((dirFiles d).map (fun f => (f.content.length : Int))).sum)).sum

/-- Byte size of the `daily/` subtree (`check_size_triggers`). -/
def dailySizeBytes (u : UserFS) : Int :=
  ((dirFiles u.daily).map (fun f => (f.content.length : Int))).sum

/-- `is_v2_structure`: the `daily/` directory exists. -/
def is_v2_structure (u : UserFS) : Bool := u.daily.present

/-! ## `MemoryManagerV2` (`src/memory_manager_v2.py`)

`Sys` is the `users/` root plus the sibling backup copies `reset_user`
creates.  A user id present in `users` models an existing user
directory. -/

structure Msg where
  role : String
  content : String
deriving DecidableEq

structure Sys where
  users : List (Nat × UserFS)
  backups : List (String × UserFS)
deriving DecidableEq

def getUser (s : Sys) (uid : Nat) : Option UserFS :=
  (s.users.find? (fun p => p.1 == uid)).map (fun p => p.2)

def setUser (s : Sys) (uid : Nat) (u : UserFS) : Sys :=
  if (s.users.find? (fun p => p.1 == uid)).isSome then
    { s with users := s.users.map (fun p => if p.1 == uid then (uid, u) else p) }
  else
    { s with users := s.users ++ [(uid, u)] }

def delUser (s : Sys) (uid : Nat) : Sys :=
  { s with users := s.users.filter (fun p => !(p.1 == uid)) }

/-- `user_exists`: the user directory and its `memory.md` both exist. -/
def user_exists (s : Sys) (uid : Nat) : Bool :=
  match getUser s uid with
  | none => false
  | some u => u.memoryIndex.isSome

/-- The `memory.md` template written by `create_user`. -/
def memoryIndexTemplate (displayName ts todayYMD todayStem : String) : String :=
  "# Crowdbot Langzeitgedächtnis für " ++ displayName ++
  "\n\nErstellt: " ++ ts ++ "\nLetzte Aktualisierung: " ++ ts ++
  "\n\n---\n\n## Wichtige Persönliche Informationen\n\n" ++
  "### Interessen & Präferenzen\n(Noch keine Informationen vorhanden)\n\n" ++
  "### Kontext\n(Noch keine Informationen vorhanden)\n\n---\n\n" ++
  "## Konversationshistorie (Chronologisch, neueste zuerst)\n\n" ++
  "### " ++ todayYMD ++ " (Heute) - [Details](daily/" ++ todayStem ++ ".md)\n\n" ++
  "**Themen:** Erste Konversation\n**Wichtigkeit:** -\n\n---\n\n" ++
  "## Meta-Statistiken\n\n- Gesamtgespräche: 0\n- Häufigstes Thema: -\n" ++
  "- Durchschnittliche Gesprächslänge: -\n- Letzte Bereinigung: Noch nie\n"

/-- The empty daily-file template (`create_user` / `_create_daily_file`). -/
def dailyTemplate (dmy ts : String) : String :=
  "# Tagesdatei " ++ dmy ++ "\n\nErstellt: " ++ ts ++ "\n\n---\n\n## Gespräche\n\n"

/-- The `preferences.md` template written by `create_user`. -/
def prefsTemplate (displayName ts : String) : String :=
  "# Persistente Präferenzen für " ++ displayName ++
  "\n\nErstellt: " ++ ts ++ "\n\n---\n\n## Interessen & Hobbys\n\n" ++
  "## Abneigungen\n\n## Wichtige Projekte\n\n## Persönliche Details\n\n"

/-- `create_user`. -/
def create_user (s : Sys) (uid : Nat) (username : Option String) (now : Int) :
    Sys × Bool :=
  if user_exists s uid then (s, false)
  else
    let u0 := (getUser s uid).getD emptyUserFS
    let u1 := ensure_v2_structure u0
    let ts := formatTimestamp now
    let display := username.getD ("User " ++ toString uid)
    let today := Int.fdiv now 86400
    let mi := memoryIndexTemplate display ts (formatYMD today) (dateStem today)
    let u2 := { u1 with memoryIndex := some mi }
    let d3 := dirWrite u2.daily (daily_file_name today) (dailyTemplate (dateDMY today) ts) now
    let u3 := { u2 with daily := d3 }
    let u4 := { u3 with preferences := some (prefsTemplate display ts) }
    (setUser s uid u4, true)

/-- `datetime.strftime('%Y%m%d_%H%M%S')` (backup-directory suffix). -/
def formatCompactTs (t : Int) : String :=
  let secs := t % 86400
  dateStem (Int.fdiv t 86400) ++ "_" ++
    pad2 (secs / 3600) ++ pad2 (secs % 3600 / 60) ++ pad2 (secs % 60)

/-- `reset_user`: missing user directory → `False` and no change;
otherwise back up the directory, delete it, and recreate the user. -/
def reset_user (s : Sys) (uid : Nat) (username : Option String) (now : Int) :
    Sys × Bool :=
  match getUser s uid with
  | none => (s, false)
  | some u =>
    let backupName := toString uid ++ "_backup_" ++ formatCompactTs now
    let s1 : Sys := { s with backups := s.backups ++ [(backupName, u)] }
    let s2 := delUser s1 uid
    create_user s2 uid username now

/-- `_create_daily_file`: no-op when the file exists. -/
def create_daily_file (u : UserFS) (z : Int) (now : Int) : UserFS :=
  if dirHas u.daily (daily_file_name z) then u
  else
    let d := dirWrite u.daily (daily_file_name z) (dailyTemplate (dateDMY z) (formatTimestamp now)) now
    { u with daily := d }

/-- `_update_memory_index_timestamp`: rewrite the first
`Letzte Aktualisierung:` line of `memory.md`. -/
def updTimestampLines (ts : String) : List String → List String
  | [] => []
  | l :: rest =>
    if strStarts l "Letzte Aktualisierung:" then
      ("Letzte Aktualisierung: " ++ ts) :: rest
    else l :: updTimestampLines ts rest

def update_memory_index_timestamp (u : UserFS) (now : Int) : UserFS :=
  match u.memoryIndex with
  | none => u
  | some content =>
    let mi := joinSep "\n" (updTimestampLines (formatTimestamp now) (splitChar content '\n'))
    { u with memoryIndex := some mi }

/-- `append_message`. -/
def append_message (s : Sys) (uid : Nat) (role content : String) (now : Int) :
    Sys × Bool :=
  let s := if !user_exists s uid then (create_user s uid none now).1 else s
  let u := (getUser s uid).getD emptyUserFS
  let today := Int.fdiv now 86400
  let dname := daily_file_name today
  let u := if !dirHas u.daily dname then create_daily_file u today now else u
  let ts := formatTimestamp now
  let roleName := if role == "user" then "Benutzer" else "Crowdbot"
  let entry := "\n### " ++ roleName ++ " - " ++ ts ++ "\n\n" ++ content ++
    "\n\n---\n\n"
  let old := (dirRead u.daily dname).getD ""
  let u := { u with daily := dirWrite u.daily dname (old ++ entry) now }
  let u := update_memory_index_timestamp u now
  (setUser s uid u, true)

/-- One flush of the accumulated block in `_parse_daily_file`
(`if current_role and current_content`). -/
def flushMsg (role? : Option String) (cc : List String) : List Msg :=
  match role? with
  | some r => if cc.isEmpty then [] else [⟨r, pyStrip (joinSep "\n" cc)⟩]
  | none => []

/-- The line loop of `_parse_daily_file`. -/
def parseLines : List String → Option String → List String → List Msg
  | [], r, cc => flushMsg r cc
  | l :: rest, r, cc =>
    if strStarts l "### Benutzer - " then
      flushMsg r cc ++ parseLines rest (some "user") []
    else if strStarts l "### Crowdbot - " then
      flushMsg r cc ++ parseLines rest (some "assistant") []
    else if pyStrip l != "" && !(strStarts l "---") && !(strStarts l "#") then
      parseLines rest r (cc ++ [l])
    else parseLines rest r cc

/-- `_parse_daily_file` (missing file → `[]`). -/
def parse_daily_file (u : UserFS) (name : String) : List Msg :=
  match dirRead u.daily name with
  | none => []
  | some content => parseLines (splitChar content '\n') none []

/-- The collection loop of `get_context`: extend with each file's
messages, stopping once `max_messages` are gathered. -/
def collectMsgs (u : UserFS) (maxM : Nat) :
    List FileEnt → List Msg → List Msg
  | [], acc => acc
  | f :: rest, acc =>
    let acc' := acc ++ parse_daily_file u f.name
    if maxM ≤ acc'.length then acc' else collectMsgs u maxM rest acc'

/-- Python `l[-k:]` (`k = 0` yields the whole list). -/
def pyLastSlice {α : Type} (l : List α) (k : Nat) : List α :=
  if k == 0 then l else l.drop (l.length - k)

/-- `get_context`: newest-first scan of the last 7 days of daily files,
then `messages.reverse()` and `messages[-max_messages:]`. -/
def get_context (s : Sys) (uid : Nat) (max_messages : Nat) (now : Int) :
    List Msg :=
  if !user_exists s uid then []
  else
    let u := (getUser s uid).getD emptyUserFS
    let files := list_daily_files u (some (now - 7 * 86400)) (some now)
    let msgs := collectMsgs u max_messages files []
    pyLastSlice msgs.reverse max_messages

/-! ## `Summarizer` (`src/summarizer.py`)

The completion service is the oracle `Llm`; `.error` at the call site
models a raised exception, caught by each operation's `try` block. -/

def Llm : Type := String → Except Unit String

instance : Inhabited FileEnt := ⟨⟨"", "", 0⟩⟩

/-- Python `s.split(sep)` for a non-empty string separator (fuelled by
the input length; each step consumes at least one character). -/
def pySplitStrAux (sep : List Char) : List Char → List Char → Nat → List String
  | [], acc, _ => [String.mk acc.reverse]
  | c :: cs, acc, 0 => [String.mk (acc.reverse ++ c :: cs)]
  | c :: cs, acc, fuel + 1 =>
    if sep.isPrefixOf (c :: cs) then
      String.mk acc.reverse ::
        pySplitStrAux sep ((c :: cs).drop sep.length) [] fuel
    else pySplitStrAux sep cs (c :: acc) fuel

def pySplitStr (s sep : String) : List String :=
  pySplitStrAux sep.data s.data [] s.data.length

/-- `re.sub(r"```[\s\S]*?```", "", text)` on the segments produced by
splitting at the fence: non-greedy pairs of fences and their contents are
removed left to right; a trailing unpaired fence is kept verbatim. -/
def removeCodeBlockSegs : List String → String
  | [] => ""
  | [s] => s
  | a :: b :: rest =>
    if rest.isEmpty then a ++ "```" ++ b else a ++ removeCodeBlockSegs rest

/-- The leftmost non-greedy closing position for `D(.+?)D`: the smallest
split with a non-empty, newline-free inner part followed by the
delimiter again. -/
def findClose (d rest : List Char) : Option (List Char × List Char) :=
  (List.range (rest.length + 1)).findSome? (fun i =>
    if 1 ≤ i && d.isPrefixOf (rest.drop i) &&
        !((rest.take i).any (fun c => c == '\n')) then
      some (rest.take i, rest.drop (i + d.length))
    else none)

/-- `re.sub(r"D(.+?)D", r"\1", text)` for a literal delimiter `D`:
left-to-right scan, replacing each matched pair by its inner part and
continuing after the match. -/
def subPairsAux (d : List Char) : List Char → Nat → List Char
  | s, 0 => s
  | [], _ => []
  | c :: cs, fuel + 1 =>
    if d.isPrefixOf (c :: cs) then
      match findClose d ((c :: cs).drop d.length) with
      | some (inner, rest) => inner ++ subPairsAux d rest fuel
      | none => c :: subPairsAux d cs fuel
    else c :: subPairsAux d cs fuel

def subPairs (d s : String) : String :=
  String.mk (subPairsAux d.data s.data s.data.length)

/-- `re.sub(r"#+\s", "", text)`: each maximal `#`-run followed by one
whitespace character is removed together with that character; a run not
followed by whitespace stays (shorter runs backtrack onto `#`, never
whitespace, so no sub-match fires inside it). -/
def subHeadersAux : List Char → Nat → List Char
  | s, 0 => s
  | [], _ => []
  | c :: cs, fuel + 1 =>
    if c == '#' then
      let run := (c :: cs).takeWhile (fun x => x == '#')
      let rest := (c :: cs).drop run.length
      match rest with
      | r :: rs =>
        if isPyWs r then subHeadersAux rs fuel
        else run ++ subHeadersAux rest fuel
      | [] => run
    else c :: subHeadersAux cs fuel

/-- `Summarizer._clean_markdown`. -/
def clean_markdown (text : String) : String :=
  let text := if strContains text "```" then
      removeCodeBlockSegs (pySplitStr text "```")
    else text
  let text := subPairs "**" text
  let text := subPairs "*" text
  let text := subPairs "__" text
  let text := subPairs "_" text
  let text := subPairs "`" text
  let text := String.mk (subHeadersAux text.data text.data.length)
  pyStrip text

/-- Extraction of a fenced block from an LLM reply
(`split("```json")[1].split("```")[0]` and the `markdown` variant). -/
def extractFenced (t : String) (fence : String) : String :=
  if strContains t ("```" ++ fence) then
    (pySplitStr ((pySplitStr t ("```" ++ fence)).getD 1 "") "```").getD 0 ""
  else if strContains t "```" then
    (pySplitStr t "```").getD 1 ""
  else t

/-- `Summarizer.SOFT_TRIM_PROMPT`, formatted. -/
def SOFT_TRIM_PROMPT (daily_content importance_scores : String) : String :=
  "Analysiere die folgende Tagesdatei und kürze unwichtige Details.\n\n" ++
  "Tagesdatei:\n" ++ daily_content ++ "\n\nWichtigkeits-Scores:\n" ++
  importance_scores ++
  "\n\nRegeln:\n1. Behalte ALLE User-Fragen vollständig\n" ++
  "2. Kürze Bot-Antworten bei Score 0-1 auf 1-2 Sätze Zusammenfassung\n" ++
  "3. Entferne vollständige Search-Resultate, behalte nur \"Fragte nach X\"\n" ++
  "4. Kürze Tool-Outputs > 500 Zeichen auf Head (200) + Tail (200)\n" ++
  "5. Behalte wichtige Erkenntnisse (Score >= 5) vollständig\n\n" ++
  "Antworte NUR mit der gekürzten Version der Tagesdatei im gleichen Markdown-Format."

/-- `Summarizer.WEEKLY_SUMMARY_PROMPT`, formatted. -/
def WEEKLY_SUMMARY_PROMPT (start_date end_date : String) (week_number : Int)
    (daily_files_content : String) : String :=
  "Erstelle eine strukturierte Wochenzusammenfassung aus den folgenden Tagesdateien.\n\n" ++
  "Zeitraum: " ++ start_date ++ " bis " ++ end_date ++
  " (KW " ++ toString week_number ++ ")\n\nTagesdateien:\n" ++
  daily_files_content ++
  "\n\nErstelle eine Zusammenfassung mit folgender Struktur:\n\n" ++
  "## Kalenderwoche " ++ toString week_number ++
  " (" ++ start_date ++ " bis " ++ end_date ++ ")\n\n" ++
  "### Hauptthemen\n- [Liste der 3-5 wichtigsten Themen]\n\n" ++
  "### Wichtige Erkenntnisse & Entscheidungen\n" ++
  "- [Projektentscheidungen, neue Erkenntnisse, strategische Überlegungen]\n\n" ++
  "### Persönliche Ereignisse\n- [Relevante persönliche Erlebnisse]\n\n" ++
  "### Wiederkehrende Aktivitäten\n- [Was wurde mehrfach gemacht/besprochen?]\n\n" ++
  "### Kontext für spätere Referenz\n" ++
  "- [Informationen die für zukünftige Gespräche relevant sein könnten]\n\n" ++
  "Fokussiere auf Informationen mit hoher Wichtigkeit (Score >= 5).\n" ++
  "Ignoriere einmalige Fakten-Anfragen (TV-Programm, Wetter, etc.).\n" ++
  "Nutze Fließtext, KEIN Markdown (für TTS-Kompatibilität)."

/-- `Summarizer.MONTHLY_SUMMARY_PROMPT`, formatted. -/
def MONTHLY_SUMMARY_PROMPT (month_name : String) (year : Int)
    (weekly_summaries : String) : String :=
  "Erstelle eine Monatszusammenfassung aus den folgenden Wochenzusammenfassungen.\n\n" ++
  "Monat: " ++ month_name ++ " " ++ toString year ++
  "\n\nWochenzusammenfassungen:\n" ++ weekly_summaries ++
  "\n\nErstelle eine Zusammenfassung mit folgender Struktur:\n\n" ++
  "## " ++ month_name ++ " " ++ toString year ++ "\n\n" ++
  "### Überblick\n- [1-2 Sätze über den Monat]\n\n" ++
  "### Schlüsselthemen\n- [Top 3-5 Themen des Monats]\n\n" ++
  "### Wichtige Meilensteine\n- [Abgeschlossene Projekte, Entscheidungen, Erfolge]\n\n" ++
  "### Entwicklungen & Trends\n" ++
  "- [Was hat sich verändert? Neue Interessen? Fortschritte?]\n\n" ++
  "### Essentials für Langzeitgedächtnis\n" ++
  "- [Nur Score >= 7: Präferenzen, wichtige Erkenntnisse]\n\n" ++
  "Nur das Wichtigste behalten. Keine temporären Fakten.\n" ++
  "Nutze Fließtext, KEIN Markdown."

/-- `Summarizer.soft_trim_daily_file` (the `importance_scores` argument
is `None` at every call site, so the scores block is the
`"Keine Scores verfügbar"` fallback). -/
def soft_trim_daily_file (d : Dir) (name : String) (llm : Llm) (now : Int) :
    Dir × Bool :=
  match dirRead d name with
  | none => (d, false)
  | some content =>
    let prompt := SOFT_TRIM_PROMPT content "Keine Scores verfügbar"
    match llm prompt with
    | .error _ => (d, false)
    | .ok trimmed =>
      let trimmed := pyStrip (extractFenced trimmed "markdown")
      (dirWrite d name trimmed now, true)

/-- `Summarizer.create_weekly_summary`: reads the given daily files (in
path order, skipping ones whose stem does not parse), derives the period
from the first and last file of the *given* order (an unparseable stem
there raises — `.error`), asks the completion service, and writes the
summary to `outName` in `weekDir` unconditionally — there is no
pre-existing-target check. -/
def create_weekly_summary (daily_files : List FileEnt) (weekDir : Dir)
    (outName : String) (week_number year : Int) (llm : Llm) (now : Int) :
    Except Unit (Dir × Bool) :=
  if daily_files.isEmpty then .ok (weekDir, false)
  else
    let daily_contents := (sortAscBy (fun f => f.name) daily_files).filterMap
      (fun f =>
        match parseDailyStem (stemOf f.name) with
        | none => none
        | some z => some ("## " ++ dateDMY z ++ "\n\n" ++ f.content ++ "\n\n---\n"))
    if daily_contents.isEmpty then .ok (weekDir, false)
    else
      match parseDailyStem (stemOf (daily_files.headD default).name),
            parseDailyStem (stemOf (daily_files.getLastD default).name) with
      | some z1, some z2 =>
        let start_date := dateDMY z1
        let end_date := dateDMY z2
        let prompt := WEEKLY_SUMMARY_PROMPT start_date end_date week_number
          (joinSep "\n" daily_contents)
        match llm prompt with
        | .error _ => .ok (weekDir, false)
        | .ok summary =>
          let summary := clean_markdown summary
          let final_content :=
            "# Wochenzusammenfassung KW " ++ toString week_number ++ "/" ++
            toString year ++ "\n\nErstellt: " ++ formatTimestamp now ++
            "\nZeitraum: " ++ start_date ++ " bis " ++ end_date ++
            "\nQuellen: " ++ toString daily_files.length ++
            " Tagesdateien\n\n---\n\n" ++ summary ++ "\n\n---\n\n" ++
            "**Hinweis:** Dies ist eine automatisch generierte Zusammenfassung.\n" ++
            "Vollständige Details sind in den archivierten Tagesdateien verfügbar.\n"
          .ok (dirWrite weekDir outName final_content now, true)
      | _, _ => .error ()

/-- `month_names[month]` with Python list indexing (negative indices wrap
once; out-of-range raises `IndexError` → `none`). -/
def pyMonthName (m : Int) : Option String :=
  let names := ["", "Januar", "Februar", "März", "April", "Mai", "Juni",
                "Juli", "August", "September", "Oktober", "November",
                "Dezember"]
  let idx := if m < 0 then m + 13 else m
  if 0 ≤ idx && idx < 13 then names.get? idx.toNat else none

/-- `Summarizer.create_monthly_summary`: like the weekly roll-up one tier
up; writes to `outName` unconditionally (no pre-existing-target check).
An out-of-range month raises (`.error`). -/
def create_monthly_summary (weekly_files : List FileEnt) (monthDir : Dir)
    (outName : String) (month year : Int) (llm : Llm) (now : Int) :
    Except Unit (Dir × Bool) :=
  if weekly_files.isEmpty then .ok (monthDir, false)
  else
    match pyMonthName month with
    | none => .error ()
    | some month_name =>
      let weekly_contents :=
        (sortAscBy (fun f => f.name) weekly_files).map (fun f => f.content)
      if weekly_contents.isEmpty then .ok (monthDir, false)
      else
        let prompt := MONTHLY_SUMMARY_PROMPT month_name year
          (joinSep "\n\n---\n\n" weekly_contents)
        match llm prompt with
        | .error _ => .ok (monthDir, false)
        | .ok summary =>
          let summary := clean_markdown summary
          let final_content :=
            "# Monatszusammenfassung " ++ month_name ++ " " ++ toString year ++
            "\n\nErstellt: " ++ formatTimestamp now ++ "\nQuellen: " ++
            toString weekly_files.length ++
            " Wochenzusammenfassungen\n\n---\n\n" ++ summary ++
            "\n\n---\n\n**Hinweis:** Dies ist eine stark verdichtete Zusammenfassung.\n" ++
            "Details sind in den archivierten Wochenzusammenfassungen verfügbar.\n"
          .ok (dirWrite monthDir outName final_content now, true)

/-- `Summarizer.create_yearly_summary`: plain concatenation, no
completion-service call; writes to `outName` unconditionally. -/
def create_yearly_summary (monthly_files : List FileEnt) (yearDir : Dir)
    (outName : String) (year : Int) (now : Int) : Dir × Bool :=
  if monthly_files.isEmpty then (yearDir, false)
  else
    let monthly_contents :=
      (sortAscBy (fun f => f.name) monthly_files).map (fun f => f.content)
    if monthly_contents.isEmpty then (yearDir, false)
    else
      let final_content :=
        "# Jahreszusammenfassung " ++ toString year ++ "\n\nErstellt: " ++
        formatTimestamp now ++ "\nQuellen: " ++
        toString monthly_files.length ++
        " Monatszusammenfassungen\n\n---\n\n## Monatsübersicht\n\n" ++
        joinSep "\n" monthly_contents ++
        "\n\n---\n\n**Hinweis:** Vollständige Jahreszusammenfassung.\n" ++
        "Dies repräsentiert die wichtigsten Ereignisse und Erkenntnisse des Jahres " ++
        toString year ++ ".\n"
      (dirWrite yearDir outName final_content now, true)

/-! ## `ContextLoader` (`src/context_loader.py`)

`_select_relevant_files` ends in a completion-service round-trip whose
parsed, cleaned output is a list of relative path strings (malformed or
failed responses yield `[]`); that list is the `selected` parameter
below, universally quantified in the theorems so every service
behaviour is covered. -/

structure LoadedFile where
  file : String
  content : String
deriving DecidableEq

/-- The context dictionary assembled by `load_context`. -/
structure LoadCtx where
  memory_index : String
  preferences : String
  recent_days : List LoadedFile
  additional_context : List LoadedFile
  total_tokens : Int
  files_loaded : List String
deriving DecidableEq

/-- `ContextLoader.MAX_MEMORY_TOKENS_GLM4`. -/
def MAX_MEMORY_TOKENS_GLM4 : Int := 64000

/-- The token-estimation divisor (4 characters ≈ 1 token) of the source. -/
def TOKEN_ESTIMATION_FACTOR : Int := 4

/-- `_load_standard_context`: `memory.md`, `preferences.md` and the
newest ≤3 daily files of the last 3 days, with
`total_tokens = total_chars // 4`. -/
def load_standard_context (u : UserFS) (now : Int) : LoadCtx :=
  let mi := u.memoryIndex.getD ""
  let chars1 : Int := match u.memoryIndex with
    | some c => (c.length : Int) | none => 0
  let fl1 : List String := match u.memoryIndex with
    | some _ => ["memory.md"] | none => []
  let pf := u.preferences.getD ""
  let chars2 : Int := match u.preferences with
    | some c => (c.length : Int) | none => 0
  let fl2 : List String := match u.preferences with
    | some _ => ["important/preferences.md"] | none => []
  let recent := (list_daily_files u (some (now - 3 * 86400)) (some now)).take 3
  let chars3 : Int := (recent.map (fun f => (f.content.length : Int))).sum
  { memory_index := mi
    preferences := pf
    recent_days := recent.map (fun f => ⟨f.name, f.content⟩)
    additional_context := []
    total_tokens := (chars1 + chars2 + chars3) / TOKEN_ESTIMATION_FACTOR
    files_loaded := fl1 ++ fl2 ++ recent.map (fun f => "daily/" ++ f.name) }

/-- Resolution of a relative path (`user_dir / rel_path`) against the
modelled user tree; `none` models a non-existent file (skipped with a
warning by `_load_historical_files`). -/
def resolveRel (u : UserFS) (rel : String) : Option String :=
  match splitChar rel '/' with
  | ["memory.md"] => u.memoryIndex
  | ["important", "preferences.md"] => u.preferences
  | ["daily", n] => dirRead u.daily n
  | ["weekly", n] => dirRead u.weekly n
  | ["monthly", n] => dirRead u.monthly n
  | ["yearly", n] => dirRead u.yearly n
  | ["archive", "daily", n] => dirRead u.archDaily n
  | ["archive", "weekly", n] => dirRead u.archWeekly n
  | ["archive", "monthly", n] => dirRead u.archMonthly n
  | _ => none

/-- `_load_historical_files`: load whole files in the given order,
accumulating `loaded_tokens`, breaking as soon as the next file would
exceed `max_tokens`. -/
def load_historical_files (u : UserFS) :
    List String → LoadCtx → Int → Int → LoadCtx
  | [], ctx, _, _ => ctx
  | rel :: rest, ctx, maxTokens, loaded =>
    match resolveRel u rel with
    | none => load_historical_files u rest ctx maxTokens loaded
    | some content =>
      let est := (content.length : Int) / TOKEN_ESTIMATION_FACTOR
      if loaded + est > maxTokens then ctx
      else
        let ctx' := { ctx with
          additional_context := ctx.additional_context ++ [⟨rel, content⟩]
          files_loaded := ctx.files_loaded ++ [rel]
          total_tokens := ctx.total_tokens + est }
        load_historical_files u rest ctx' maxTokens (loaded + est)

/-- `load_context`: standard context, the `remaining < 1000` floor, then
historical augmentation for non-trivial queries. -/
def load_context (u : UserFS) (user_query : String)
    (selected : List String) (now : Int) : LoadCtx :=
  let ctx := load_standard_context u now
  let remaining := MAX_MEMORY_TOKENS_GLM4 - ctx.total_tokens
  if remaining < 1000 then ctx
  else if user_query != "" && user_query.data.length > 10 then
    load_historical_files u selected ctx remaining 0
  else ctx

/-- A `memory.md` of 260000 characters: its standard context alone is
estimated at 65000 tokens, beyond the 64000-token budget. -/
def c5big : String := String.mk (List.replicate 260000 'a')

def c5user : UserFS := { emptyUserFS with memoryIndex := some c5big }

/-! ## `CleanupService` (`src/cleanup_service.py`)

The per-user daily cleanup passes.  Exceptions that the source does not
catch inside a pass (the `strptime`/`datetime` constructors noted per
operation) propagate as `.error`; `run_daily_cleanup`'s per-user
`try/except` is the outermost boundary and is not needed by any claim. -/

def SOFT_TRIM_AFTER_DAYS : Int := 1
def WEEKLY_SUMMARY_AFTER_DAYS : Int := 7
def MONTHLY_SUMMARY_AFTER_DAYS : Int := 30
def ARCHIVE_COMPRESSION_AFTER_DAYS : Int := 90
def PROTECTED_RECENT_DAYS : Int := 7
def MAX_DAILY_FOLDER_SIZE_MB : Int := 20

/-- Python `int(s)` (optional minus sign, digits; these filenames never
carry `+`, whitespace or underscores). -/
def parsePyInt (s : String) : Option Int :=
  match s.data with
  | '-' :: rest =>
    if rest ≠ [] && rest.all (fun c => c.isDigit) then
      some (-(rest.foldl (fun acc c => acc * 10 + (c.toNat - 48 : Int)) 0))
    else none
  | _ => parseNatDigits s

/-- Insertion-ordered grouping, as a Python `dict` of lists built by
appending (`weeks[...]`, `months[...]`, `years[...]`). -/
def addToGroup {κ α : Type} [BEq κ] (acc : List (κ × List α)) (k : κ)
    (x : α) : List (κ × List α) :=
  if (acc.find? (fun p => p.1 == k)).isSome then
    acc.map (fun p => if p.1 == k then (p.1, p.2 ++ [x]) else p)
  else acc ++ [(k, [x])]

/-- `_run_soft_trim`: per file, skip on unparseable stem (the per-file
`try`), on dates newer than either the 1-day cutoff or the protected
window, and on files already below 2 KiB; otherwise apply the trim. -/
def run_soft_trim (u : UserFS) (now : Int) (llm : Llm) : Nat × UserFS :=
  let cutoff := now - SOFT_TRIM_AFTER_DAYS * 86400
  let protectedDate := now - PROTECTED_RECENT_DAYS * 86400
  (list_daily_files u none none).foldl (fun st f =>
    match parseDailyStem (stemOf f.name) with
    | none => st
    | some z =>
      if z * 86400 > cutoff || z * 86400 > protectedDate then st
      else
        match dirFind st.2.daily f.name with
        | none => st
        | some cur =>
          if (cur.content.length : Int) < 2048 then st
          else
            let (d', ok) := soft_trim_daily_file st.2.daily f.name llm now
            (st.1 + (if ok then 1 else 0), { st.2 with daily := d' }))
    (0, u)

/-- The week grouping of `_run_weekly_summaries`: key =
`(file_date.year, file_date.isocalendar()[1])` — note the *calendar*
year combined with the ISO week number, exactly as the source computes
it. -/
def groupWeeks (files : List FileEnt) :
    List ((Int × Int) × List (Int × String)) :=
  files.foldl (fun acc f =>
    match parseDailyStem (stemOf f.name) with
    | none => acc
    | some z => addToGroup acc ((civilFromDays z).1, (isoYearWeek z).2)
        (z, f.name)) []

/-- One week group of `_run_weekly_summaries`: skip when the group's
*oldest* file is newer than the 7-day cutoff or the protected date (the
younger members are not examined), when fewer than 5 files exist, or
when the weekly summary already exists; otherwise build the summary and,
on success, archive every member daily file. -/
def process_week_group (now : Int) (llm : Llm) (u : UserFS)
    (counts : Nat × Nat) (g : (Int × Int) × List (Int × String)) :
    Except Unit (UserFS × (Nat × Nat)) :=
  let cutoff := now - WEEKLY_SUMMARY_AFTER_DAYS * 86400
  let protectedDate := now - PROTECTED_RECENT_DAYS * 86400
  let week_files := sortAscByInt (fun p => p.1) g.2
  match week_files.head? with
  | none => .ok (u, counts)
  | some hd =>
    if hd.1 * 86400 > cutoff || hd.1 * 86400 > protectedDate then .ok (u, counts)
    else if week_files.length < 5 then .ok (u, counts)
    else
      let outName := weekly_file_name g.1.1 g.1.2
      if dirHas u.weekly outName then .ok (u, counts)
      else
        let ents := week_files.filterMap (fun p => dirFind u.daily p.2)
        match create_weekly_summary ents u.weekly outName g.1.2 g.1.1 llm now with
        | .error e => .error e
        | .ok (newWeekly, success) =>
          if success then
            let u1 := { u with weekly := newWeekly }
            let st := week_files.foldl (fun st p =>
              let (u', r) := archive_file st.1 Tier.daily p.2
              (u', st.2 + (if r.isSome then 1 else 0))) (u1, 0)
            .ok (st.1, (counts.1 + 1, counts.2 + st.2))
          else .ok (u, counts)

def run_week_groups (now : Int) (llm : Llm) :
    List ((Int × Int) × List (Int × String)) → UserFS → (Nat × Nat) →
    Except Unit (UserFS × (Nat × Nat))
  | [], u, c => .ok (u, c)
  | g :: rest, u, c =>
    match process_week_group now llm u c g with
    | .error e => .error e
    | .ok (u', c') => run_week_groups now llm rest u' c'

/-- `_run_weekly_summaries`. -/
def run_weekly_summaries (u : UserFS) (now : Int) (llm : Llm) :
    Except Unit (UserFS × (Nat × Nat)) :=
  let daily_files := list_daily_files u none none
  if daily_files.isEmpty then .ok (u, (0, 0))
  else run_week_groups now llm (groupWeeks daily_files) u (0, 0)

/-- `YYYY-WXX` stem parsing of `_run_monthly_summaries`
(`stem.split("-W")`, `int` on the first two parts; failures skip). -/
def parseWeeklyStem (stem : String) : Option (Int × Int) :=
  match pySplitStr stem "-W" with
  | a :: b :: _ =>
    (match parsePyInt a, parsePyInt b with
     | some y, some w => some (y, w)
     | _, _ => none)
  | _ => none

/-- The month bucketing of `_run_monthly_summaries`:
`month = (week-1)//4 + 1`, capped at 12. -/
def groupMonths (files : List FileEnt) : List ((Int × Int) × List String) :=
  files.foldl (fun acc f =>
    match parseWeeklyStem (stemOf f.name) with
    | none => acc
    | some (y, w) =>
      let month := (w - 1) / 4 + 1
      let month := if month > 12 then 12 else month
      addToGroup acc (y, month) f.name) []

/-- One month group of `_run_monthly_summaries`.  `datetime(year, month,
1)` raises on a month outside 1..12 (reachable from a weekly stem such
as `2026-W00`) — that exception is not caught inside the pass. -/
def process_month_group (now : Int) (llm : Llm) (u : UserFS)
    (counts : Nat × Nat) (g : (Int × Int) × List String) :
    Except Unit (UserFS × (Nat × Nat)) :=
  if g.2.length < 4 then .ok (u, counts)
  else if !(1 ≤ g.1.2 && g.1.2 ≤ 12) then .error ()
  else
    let first_day := daysFromCivil g.1.1 g.1.2 1 * 86400
    if first_day > now - MONTHLY_SUMMARY_AFTER_DAYS * 86400 then .ok (u, counts)
    else
      let outName := monthly_file_name g.1.1 g.1.2
      if dirHas u.monthly outName then .ok (u, counts)
      else
        let ents := g.2.filterMap (fun n => dirFind u.weekly n)
        match create_monthly_summary ents u.monthly outName g.1.2 g.1.1 llm now with
        | .error e => .error e
        | .ok (newMonthly, success) =>
          if success then
            let u1 := { u with monthly := newMonthly }
            let st := g.2.foldl (fun st n =>
              let (u', r) := archive_file st.1 Tier.weekly n
              (u', st.2 + (if r.isSome then 1 else 0))) (u1, 0)
            .ok (st.1, (counts.1 + 1, counts.2 + st.2))
          else .ok (u, counts)

def run_month_groups (now : Int) (llm : Llm) :
    List ((Int × Int) × List String) → UserFS → (Nat × Nat) →
    Except Unit (UserFS × (Nat × Nat))
  | [], u, c => .ok (u, c)
  | g :: rest, u, c =>
    match process_month_group now llm u c g with
    | .error e => .error e
    | .ok (u', c') => run_month_groups now llm rest u' c'

/-- `_run_monthly_summaries`. -/
def run_monthly_summaries (u : UserFS) (now : Int) (llm : Llm) :
    Except Unit (UserFS × (Nat × Nat)) :=
  if !u.weekly.present then .ok (u, (0, 0))
  else run_month_groups now llm (groupMonths (globMd u.weekly)) u (0, 0)

/-- `_run_archive_compression`. -/
def run_archive_compression (u : UserFS) (now : Int) (gz : Gzip) :
    UserFS × Nat :=
  (find_old_archives u now ARCHIVE_COMPRESSION_AFTER_DAYS).foldl (fun st pr =>
    let (d', r) := compress_file (archDir st.1 pr.1) pr.2 gz now
    (setArchDir st.1 pr.1 d', st.2 + (if r.isSome then 1 else 0))) (u, 0)

/-- The year grouping of `_run_yearly_summaries`
(`int(stem.split("-")[0])`; failures skip). -/
def groupYears (files : List FileEnt) : List (Int × List String) :=
  files.foldl (fun acc f =>
    match splitChar (stemOf f.name) '-' with
    | a :: _ =>
      (match parsePyInt a with
       | some y => addToGroup acc y f.name
       | none => acc)
    | [] => acc) []

/-- One year group of `_run_yearly_summaries` (no archival at this
tier; the `yearly/` directory is created before the existence check). -/
def process_year_group (now : Int) (u : UserFS) (counts : Nat)
    (g : Int × List String) : UserFS × Nat :=
  let current_year := (civilFromDays (Int.fdiv now 86400)).1
  if g.1 ≥ current_year then (u, counts)
  else if g.2.length < 10 then (u, counts)
  else
    let u := { u with yearly := dirMk u.yearly }
    let outName := toString g.1 ++ ".md"
    if dirHas u.yearly outName then (u, counts)
    else
      let ents := g.2.filterMap (fun n => dirFind u.monthly n)
      let (newYearly, success) := create_yearly_summary ents u.yearly outName g.1 now
      if success then ({ u with yearly := newYearly }, counts + 1)
      else (u, counts)

/-- `_run_yearly_summaries`. -/
def run_yearly_summaries (u : UserFS) (now : Int) : UserFS × Nat :=
  if !u.monthly.present then (u, 0)
  else (groupYears (globMd u.monthly)).foldl
    (fun st g => process_year_group now st.1 st.2 g) (u, 0)

/-- `check_size_triggers` (the megabyte comparisons of the source divide
by 1024² as floats; compared in exact bytes here, identical away from
the representability boundary).  Within a cleanup run the user directory
exists. -/
def check_size_triggers (u : UserFS) : Bool :=
  let dailyBytes := if u.daily.present then dailySizeBytes u else 0
  if totalSizeBytes u > 100 * 1024 * 1024 then true
  else if dailyBytes > MAX_DAILY_FOLDER_SIZE_MB * 1024 * 1024 then true
  else false

/-- `emergency_cleanup`: fewer than 3 daily files → `False`; otherwise
take the last 5 of the newest-first listing (the 5 oldest), key the
forced weekly summary by the *calendar year* and ISO week number of
`oldest_files[0]` (the newest of the chosen, `first_date.year` /
`isocalendar()[1]`), and archive the chosen files only on success.  An
unparseable stem at `oldest_files[0]` raises. -/
def emergency_cleanup (u : UserFS) (now : Int) (llm : Llm) :
    Except Unit (UserFS × Bool) :=
  let daily_files := list_daily_files u none none
  if daily_files.length < 3 then .ok (u, false)
  else
    let oldest_files := pyLastSlice daily_files 5
    match oldest_files.head? with
    | none => .ok (u, false)
    | some f0 =>
      match parseDailyStem (stemOf f0.name) with
      | none => .error ()
      | some z0 =>
        let week_number := (isoYearWeek z0).2
        let year := (civilFromDays z0).1
        let outName := weekly_file_name year week_number
        match create_weekly_summary oldest_files u.weekly outName
            week_number year llm now with
        | .error e => .error e
        | .ok (newWeekly, success) =>
          if success then
            let u1 := { u with weekly := newWeekly }
            let u2 := oldest_files.foldl
              (fun st f => (archive_file st Tier.daily f.name).1) u1
            .ok (u2, true)
          else .ok (u, false)

structure CleanupStats where
  soft_trimmed : Nat
  weekly_summaries : Nat
  monthly_summaries : Nat
  yearly_summaries : Nat
  archived : Nat
  compressed : Nat
deriving DecidableEq

/-- `_cleanup_user`: the per-user pass sequence (trim → weekly →
monthly → compression → yearly → size trigger / emergency). -/
def cleanup_user (u : UserFS) (now : Int) (llm : Llm) (gz : Gzip) :
    Except Unit (CleanupStats × UserFS) :=
  if !is_v2_structure u then .ok (⟨0, 0, 0, 0, 0, 0⟩, u)
  else
    let p1 := run_soft_trim u now llm
    match run_weekly_summaries p1.2 now llm with
    | .error e => .error e
    | .ok (u2, wk) =>
      match run_monthly_summaries u2 now llm with
      | .error e => .error e
      | .ok (u3, mo) =>
        let p4 := run_archive_compression u3 now gz
        let p5 := run_yearly_summaries p4.1 now
        let stats : CleanupStats :=
          ⟨p1.1, wk.1, mo.1, p5.2, wk.2 + mo.2, p4.2⟩
        if check_size_triggers p5.1 then
          match emergency_cleanup p5.1 now llm with
          | .error e => .error e
          | .ok (u6, _) => .ok (stats, u6)
        else .ok (stats, p5.1)

/-! ## Concrete scenario for the recent-read claim

One user, one daily file, three turns appended in order on 2026-03-10
(the repository's own `test_get_context_v2` scenario). -/

def c4now : Int := daysFromCivil 2026 3 10 * 86400 + 10 * 3600

def c4sys : Sys :=
  (append_message
    (append_message
      (append_message ⟨[], []⟩ 12345 "user" "Frage 1" c4now).1
      12345 "assistant" "Antwort 1" (c4now + 5)).1
    12345 "user" "Frage 2" (c4now + 9)).1

/-! ## Concrete scenario states for the remaining claims -/

/-- A completion service answering every prompt. -/
def llmK : Llm := fun _ => .ok "Zusammenfassung der Woche"

/-- A completion service that always raises. -/
def llmFail : Llm := fun _ => .error ()

/-- A gzip copy that always completes. -/
def gzId : Gzip := fun s => .ok s

/-- A gzip copy that raises after three bytes reached the destination. -/
def gzFail6 : Gzip := fun _ => .fail "HEL"

/-- One daily file and a weekly directory already holding the target
summary identity (for the append-never-overwrite claim). -/
def c2files : List FileEnt := [⟨"20260106.md", "Inhalt A", 0⟩]

def c2weekly : Dir := ⟨true, [⟨"2026-W02.md", "OLD", 0⟩]⟩

/-- A user whose weekly, monthly and yearly tiers already hold a summary
at the respective identities. -/
def c2user : UserFS :=
  { emptyUserFS with
    weekly := ⟨true, [⟨"2026-W02.md", "OLD", 0⟩]⟩
    monthly := ⟨true, [⟨"2026-02.md", "OLDM", 0⟩]⟩
    yearly := ⟨true, [⟨"2025.md", "OLDY", 0⟩]⟩ }

/-- An archive directory with one plaintext file (for the compression
claim). -/
def c6dir : Dir := ⟨true, [⟨"a.md", "HELLO CONTENT", 100⟩]⟩

/-- Monday 2026-02-02, 04:00 — the daily cleanup instant of the
protected-window scenario. -/
def c1day : Int := daysFromCivil 2026 2 2

def c1now : Int := c1day * 86400 + 4 * 3600

/-- Daily files at day-offsets 0..10 from 2026-02-02 (all small enough
to be exempt from soft-trim). -/
def c1files : List FileEnt :=
  (List.range 11).map (fun k =>
    ⟨daily_file_name (c1day - k), "inhalt " ++ toString k, (c1day - k) * 86400⟩)

def c1user : UserFS :=
  { memoryIndex := some "index", preferences := some "prefs",
    daily := ⟨true, c1files⟩, weekly := ⟨true, []⟩, monthly := ⟨true, []⟩,
    yearly := ⟨true, []⟩,
    archDaily := ⟨true, []⟩, archWeekly := ⟨true, []⟩, archMonthly := ⟨true, []⟩ }

/-- Three daily files in ISO week 2026-W01 but calendar year 2025 (for
the emergency-compaction keying claim). -/
def c9user : UserFS :=
  { emptyUserFS with
    daily := ⟨true, [⟨"20251229.md", "A", 0⟩, ⟨"20251230.md", "B", 0⟩,
                     ⟨"20251231.md", "C", 0⟩]⟩
    weekly := ⟨true, []⟩
    archDaily := ⟨true, []⟩ }

def c9now : Int := daysFromCivil 2026 1 1 * 86400

/-! # Theorems -/

/-! ## Directory-operation lemmas -/

theorem find_map_write (l : List FileEnt) (n : String) (c : String) (t : Int) :
    (l.map (fun f => if f.name == n then ⟨n, c, t⟩ else f)).find?
        (fun f => f.name == n) =
      (l.find? (fun f => f.name == n)).map (fun _ => (⟨n, c, t⟩ : FileEnt)) := by
  induction l with
  | nil => rfl
  | cons a as ih =>
    simp only [beq_iff_eq] at ih
    by_cases h : a.name = n
    · simp [List.find?_cons, h]
    · simp [List.find?_cons, h, ih]

theorem find_map_write_other (l : List FileEnt) (n c : String) (t : Int)
    (n' : String) (h : n' ≠ n) :
    (l.map (fun f => if f.name == n then ⟨n, c, t⟩ else f)).find?
        (fun f => f.name == n') =
      l.find? (fun f => f.name == n') := by
  induction l with
  | nil => rfl
  | cons a as ih =>
    simp only [beq_iff_eq] at ih
    by_cases ha : a.name = n
    · have hb : ¬ n = n' := fun hc => h hc.symm
      have hc : ¬ a.name = n' := by rw [ha]; exact hb
      simp [List.find?_cons, ha, hb, hc, ih]
    · by_cases hb : a.name = n'
      · have ha' : (a.name == n) = false := by simpa using ha
        have hb' : (a.name == n') = true := by simpa using hb
        simp only [List.map_cons, List.find?_cons, ha', hb', Bool.false_eq_true,
          if_false]
      · simp [List.find?_cons, ha, hb, ih]

theorem find_append_or (l1 l2 : List FileEnt) (p : FileEnt → Bool) :
    (l1 ++ l2).find? p = ((l1.find? p).orElse (fun _ => l2.find? p)) := by
  induction l1 with
  | nil => rfl
  | cons a as ih =>
    by_cases h : p a
    · simp [List.find?_cons, h]
    · simp [List.find?_cons, h, ih]

theorem find_filter_self (l : List FileEnt) (n : String) :
    (l.filter (fun f => !(f.name == n))).find? (fun f => f.name == n) = none := by
  induction l with
  | nil => rfl
  | cons a as ih =>
    by_cases h : a.name = n
    · simp [List.filter_cons, h, ih]
    · simp [List.filter_cons, h, List.find?_cons, ih]

theorem find_filter_other (l : List FileEnt) (n n' : String) (h : n' ≠ n) :
    (l.filter (fun f => !(f.name == n))).find? (fun f => f.name == n') =
      l.find? (fun f => f.name == n') := by
  induction l with
  | nil => rfl
  | cons a as ih =>
    by_cases ha : a.name = n
    · have hc : ¬ a.name = n' := by rw [ha]; exact fun hc => h hc.symm
      have hb2 : ¬ n = n' := fun hc => h hc.symm
      simp [List.filter_cons, ha, List.find?_cons, hc, hb2, ih]
    · by_cases hb : a.name = n'
      · have ha' : (a.name == n) = false := by simpa using ha
        have hb' : (a.name == n') = true := by simpa using hb
        simp only [List.filter_cons, ha', Bool.not_false, if_true,
          List.find?_cons, hb']
      · simp [List.filter_cons, ha, List.find?_cons, hb, ih]

theorem dirFind_write_self (d : Dir) (n c : String) (t : Int) :
    dirFind (dirWrite d n c t) n = some ⟨n, c, t⟩ := by
  unfold dirWrite
  by_cases h : dirHas d n
  · rw [if_pos h]
    show ((dirFiles d).map (fun f => if f.name == n then (⟨n, c, t⟩ : FileEnt) else f)).find? (fun f => f.name == n) = _
    rw [find_map_write]
    unfold dirHas dirFind at h
    rcases Option.isSome_iff_exists.mp h with ⟨f, hf⟩
    rw [hf]
    rfl
  · rw [if_neg h]
    show ((dirFiles d) ++ ([⟨n, c, t⟩] : List FileEnt)).find? (fun f => f.name == n) = _
    rw [find_append_or]
    unfold dirHas dirFind at h
    rw [Option.not_isSome_iff_eq_none.mp h]
    simp [List.find?_cons]

theorem dirFind_write_other (d : Dir) (n c : String) (t : Int) (n' : String)
    (h : n' ≠ n) :
    dirFind (dirWrite d n c t) n' = dirFind d n' := by
  unfold dirWrite
  by_cases hh : dirHas d n
  · rw [if_pos hh]
    show ((dirFiles d).map (fun f => if f.name == n then (⟨n, c, t⟩ : FileEnt) else f)).find? (fun f => f.name == n') = _
    rw [find_map_write_other _ _ _ _ _ h]
    rfl
  · rw [if_neg hh]
    show ((dirFiles d) ++ ([⟨n, c, t⟩] : List FileEnt)).find? (fun f => f.name == n') = _
    rw [find_append_or]
    have hne2 : (n == n') = false := by
      simp only [beq_eq_false_iff_ne]
      exact fun hc => h hc.symm
    have : ([(⟨n, c, t⟩ : FileEnt)].find? (fun f => f.name == n')) = none := by
      simp [List.find?_cons, hne2]
    rw [this]
    unfold dirFind
    cases (dirFiles d).find? (fun f => f.name == n') <;> rfl

theorem dirFind_remove_self (d : Dir) (n : String) :
    dirFind (dirRemove d n) n = none := by
  unfold dirRemove dirFind
  have : dirFiles ⟨d.present, (dirFiles d).filter (fun f => !(f.name == n))⟩ =
      if d.present then (dirFiles d).filter (fun f => !(f.name == n)) else [] := rfl
  rw [this]
  cases hp : d.present
  · rfl
  · simp only [if_pos rfl]
    exact find_filter_self _ _

theorem dirFind_remove_other (d : Dir) (n n' : String) (h : n' ≠ n) :
    dirFind (dirRemove d n) n' = if d.present then dirFind d n' else none := by
  unfold dirRemove dirFind
  have : dirFiles ⟨d.present, (dirFiles d).filter (fun f => !(f.name == n))⟩ =
      if d.present then (dirFiles d).filter (fun f => !(f.name == n)) else [] := rfl
  rw [this]
  cases hp : d.present
  · rfl
  · simp only [if_pos rfl]
    exact find_filter_other _ _ _ h

theorem dirRead_write_self (d : Dir) (n c : String) (t : Int) :
    dirRead (dirWrite d n c t) n = some c := by
  unfold dirRead
  rw [dirFind_write_self]
  rfl

theorem dirRead_write_other (d : Dir) (n c : String) (t : Int) (n' : String)
    (h : n' ≠ n) :
    dirRead (dirWrite d n c t) n' = dirRead d n' := by
  unfold dirRead
  rw [dirFind_write_other _ _ _ _ _ h]

theorem dirHas_write_self (d : Dir) (n c : String) (t : Int) :
    dirHas (dirWrite d n c t) n = true := by
  unfold dirHas
  rw [dirFind_write_self]
  rfl

theorem dirHas_write_other (d : Dir) (n c : String) (t : Int) (n' : String)
    (h : n' ≠ n) :
    dirHas (dirWrite d n c t) n' = dirHas d n' := by
  unfold dirHas
  rw [dirFind_write_other _ _ _ _ _ h]

theorem dirHas_remove_self (d : Dir) (n : String) :
    dirHas (dirRemove d n) n = false := by
  unfold dirHas
  rw [dirFind_remove_self]
  rfl

theorem dirHas_false_of_find_none {d : Dir} {n : String}
    (h : dirFind d n = none) : dirHas d n = false := by
  unfold dirHas
  rw [h]
  rfl

theorem dirRead_remove_self (d : Dir) (n : String) :
    dirRead (dirRemove d n) n = none := by
  unfold dirRead
  rw [dirFind_remove_self]
  rfl

theorem dirWrite_present (d : Dir) (n c : String) (t : Int) :
    (dirWrite d n c t).present = true := by
  unfold dirWrite
  split <;> rfl

theorem dir_present_of_has {d : Dir} {n : String} (h : dirHas d n = true) :
    d.present = true := by
  unfold dirHas dirFind dirFiles at h
  cases hp : d.present
  · rw [hp] at h
    simp at h
  · rfl

theorem dirMk_eq_self {d : Dir} (h : d.present = true) : dirMk d = d := by
  unfold dirMk dirFiles
  rw [h]
  show (⟨true, d.files⟩ : Dir) = d
  rw [← h]

theorem ne_append_gz (s : String) : s ≠ s ++ ".gz" := by
  intro h
  have hlen := congrArg String.length h
  rw [String.length_append] at hlen
  have h3 : (".gz" : String).length = 3 := rfl
  omega

/-! ## Claim theorems: compression (C6) -/

/-- C6 counterexample: a gzip copy that fails after writing three bytes
leaves a half-written `a.md.gz` *at the final compressed name* (the
source writes directly to `str(file) + ".gz"`, with no temporary-name
staging), refuting the claim that no partial artifact is left in place;
the plaintext original does survive and the call reports failure. -/
theorem c6_counterexample :
    (compress_file c6dir "a.md" gzFail6 200).2 = none ∧
    dirRead (compress_file c6dir "a.md" gzFail6 200).1 "a.md.gz" = some "HEL" ∧
    dirRead (compress_file c6dir "a.md" gzFail6 200).1 "a.md" =
      some "HELLO CONTENT" := by
  refine ⟨rfl, rfl, rfl⟩

/-- C6 (amended): `compress_file` returns a failure indicator rather
than raising, and on any failure the plaintext is intact (unchanged);
when the copy completes, the compressed content is at `<name>.gz`, the
plaintext is deleted, and the compressed path is returned; when the copy
fails partway, the partial output is left at the final `<name>.gz` name
(no temporary-name staging, and no verification beyond the absence of an
exception). -/
theorem c6_amended_compress (d : Dir) (name : String) (gz : Gzip) (now : Int) :
    ((compress_file d name gz now).2 = none →
      dirRead (compress_file d name gz now).1 name = dirRead d name) ∧
    (∀ f c, dirFind d name = some f → gz f.content = .ok c →
      dirRead (compress_file d name gz now).1 (name ++ ".gz") = some c ∧
      dirRead (compress_file d name gz now).1 name = none ∧
      (compress_file d name gz now).2 = some (name ++ ".gz")) ∧
    (∀ f p, dirFind d name = some f → gz f.content = .fail p →
      dirRead (compress_file d name gz now).1 (name ++ ".gz") = some p ∧
      (compress_file d name gz now).2 = none) := by
  unfold compress_file
  cases hf : dirFind d name with
  | none =>
    exact ⟨fun _ => rfl, fun f c hsome _ => Option.noConfusion hsome,
      fun f p hsome _ => Option.noConfusion hsome⟩
  | some f0 =>
    dsimp only
    cases hgz : gz f0.content with
    | ok c0 =>
      dsimp only
      refine ⟨fun hsnd => ?_, fun f c hsome hc => ?_, fun f p hsome hp => ?_⟩
      · exact absurd hsnd (by simp)
      · injection hsome with hfe
        subst hfe
        rw [hgz] at hc
        injection hc with hce
        subst hce
        refine ⟨?_, ?_, rfl⟩
        · unfold dirRead
          rw [dirFind_remove_other _ _ _ (fun hh => ne_append_gz name hh.symm),
            dirWrite_present, if_pos rfl, dirFind_write_self]
          rfl
        · exact dirRead_remove_self _ _
      · injection hsome with hfe
        subst hfe
        rw [hgz] at hp
        cases hp
    | fail p0 =>
      dsimp only
      refine ⟨fun _ => ?_, fun f c hsome hc => ?_, fun f p hsome hp => ?_⟩
      · exact dirRead_write_other _ _ _ _ _ (ne_append_gz name)
      · injection hsome with hfe
        subst hfe
        rw [hgz] at hc
        cases hc
      · injection hsome with hfe
        subst hfe
        rw [hgz] at hp
        injection hp with hpe
        subst hpe
        exact ⟨dirRead_write_self _ _ _ _, rfl⟩

/-- Witness for `c6_amended_compress`: a successful compression of the
concrete archive directory. -/
theorem c6_amended_compress_witness :
    dirRead (compress_file c6dir "a.md" gzId 300).1 "a.md.gz" =
      some "HELLO CONTENT" ∧
    dirRead (compress_file c6dir "a.md" gzId 300).1 "a.md" = none ∧
    (compress_file c6dir "a.md" gzId 300).2 = some "a.md.gz" :=
  (c6_amended_compress c6dir "a.md" gzId 300).2.1
    ⟨"a.md", "HELLO CONTENT", 100⟩ "HELLO CONTENT" rfl rfl

/-! ## Claim theorems: append-never-overwrite (C2) -/

/-- C2 counterexample: `create_weekly_summary` called with a target path
that already exists (content `OLD`) returns `true` and overwrites the
file — it is not the claimed no-op-returns-false guard; neither it nor
the emergency path checks the target for existence. -/
theorem c2_counterexample :
    (create_weekly_summary c2files c2weekly "2026-W02.md" 2 2026 llmK 0).toOption.map
        (fun p => p.2) = some true ∧
    (create_weekly_summary c2files c2weekly "2026-W02.md" 2 2026 llmK 0).toOption.map
        (fun p => dirRead p.1 "2026-W02.md") ≠ some (some "OLD") := by
  constructor
  · rfl
  · decide

/-- C2 (amended): the *scheduler's* normal promotion passes do skip an
already-existing target: a weekly, monthly or yearly group whose target
summary file exists is processed into an unchanged state with unchanged
counters.  (The Summarizer operations themselves write unconditionally,
and the emergency path performs no existence check, per the
counterexample.) -/
theorem c2_amended_scheduler_skips (now : Int) (llm : Llm) (u : UserFS)
    (counts : Nat × Nat) (cy : Nat)
    (gw : (Int × Int) × List (Int × String))
    (gm : (Int × Int) × List String)
    (gy : Int × List String) :
    (dirHas u.weekly (weekly_file_name gw.1.1 gw.1.2) = true →
      process_week_group now llm u counts gw = .ok (u, counts)) ∧
    (1 ≤ gm.1.2 → gm.1.2 ≤ 12 →
      dirHas u.monthly (monthly_file_name gm.1.1 gm.1.2) = true →
      process_month_group now llm u counts gm = .ok (u, counts)) ∧
    (dirHas u.yearly (toString gy.1 ++ ".md") = true →
      process_year_group now u cy gy = (u, cy)) := by
  refine ⟨fun hw => ?_, fun hm1 hm2 hm => ?_, fun hy => ?_⟩
  · unfold process_week_group
    dsimp only
    simp only [hw, eq_self_iff_true, if_true]
    cases (sortAscByInt (fun p => p.1) gw.2).head? with
    | none => rfl
    | some hd =>
      dsimp only
      split
      · rfl
      · split <;> rfl
  · unfold process_month_group
    dsimp only
    have hb : (1 ≤ gm.1.2 && gm.1.2 ≤ 12) = true := by
      simp only [Bool.and_eq_true, decide_eq_true_eq]
      exact ⟨hm1, hm2⟩
    simp only [hb, Bool.not_true, Bool.false_eq_true, if_false, hm,
      eq_self_iff_true, if_true]
    split
    · rfl
    · split <;> rfl
  · unfold process_year_group
    dsimp only
    rw [dirMk_eq_self (dir_present_of_has hy)]
    simp only [hy, eq_self_iff_true, if_true]
    split
    · rfl
    · split <;> rfl

/-- Witness for `c2_amended_scheduler_skips`: all three passes skip on a
user already holding summaries at the target identities. -/
theorem c2_amended_scheduler_skips_witness :
    process_week_group 0 llmK c2user (0, 0)
        ((2026, 2), [(daysFromCivil 2026 1 6, "20260106.md")]) =
      .ok (c2user, (0, 0)) ∧
    process_month_group 0 llmK c2user (0, 0)
        ((2026, 2), ["2026-W05.md", "2026-W06.md", "2026-W07.md", "2026-W08.md"]) =
      .ok (c2user, (0, 0)) ∧
    process_year_group 0 c2user 0
        (2025, ["a", "b", "c", "d", "e", "f", "g", "h", "i", "j"]) =
      (c2user, 0) :=
  ⟨(c2_amended_scheduler_skips 0 llmK c2user (0, 0) 0
      ((2026, 2), [(daysFromCivil 2026 1 6, "20260106.md")])
      ((2026, 2), ["2026-W05.md", "2026-W06.md", "2026-W07.md", "2026-W08.md"])
      (2025, ["a", "b", "c", "d", "e", "f", "g", "h", "i", "j"])).1 (by decide),
   (c2_amended_scheduler_skips 0 llmK c2user (0, 0) 0
      ((2026, 2), [(daysFromCivil 2026 1 6, "20260106.md")])
      ((2026, 2), ["2026-W05.md", "2026-W06.md", "2026-W07.md", "2026-W08.md"])
      (2025, ["a", "b", "c", "d", "e", "f", "g", "h", "i", "j"])).2.1
      (by norm_num) (by norm_num) (by decide),
   (c2_amended_scheduler_skips 0 llmK c2user (0, 0) 0
      ((2026, 2), [(daysFromCivil 2026 1 6, "20260106.md")])
      ((2026, 2), ["2026-W05.md", "2026-W06.md", "2026-W07.md", "2026-W08.md"])
      (2025, ["a", "b", "c", "d", "e", "f", "g", "h", "i", "j"])).2.2 (by decide)⟩

/-! ## Claim theorems: protected window (C1) -/

set_option maxRecDepth 10000 in
/-- C1: a full normal-trigger cleanup pass (no size trigger fires) over
daily files at day-offsets 0..10 from Monday 2026-02-02 04:00 archives
the files at offsets 1..6 — dates *inside* the protected 7-day window
(each is newer than `now - PROTECTED_RECENT_DAYS` days, as the last
conjunct shows for offset 1) — because `_run_weekly_summaries` checks
only the *oldest* file of each ISO-week group against the protected
date: the group for ISO week 2026-W05 spans offsets 1..7, its oldest
member (offset 7) lies just outside the window, so the whole week is
summarised and all seven files are moved to the archive.  This
contradicts the claim, the spec's protected-window invariant, and the
source's own comment on `PROTECTED_RECENT_DAYS`
(`Letzte 7 Tage nie bereinigen`). -/
theorem c1_protected_window_violated :
    (cleanup_user c1user c1now llmK gzId).map (fun p =>
      (p.1.weekly_summaries, p.1.archived,
       dirHas p.2.daily "20260201.md",
       dirHas p.2.archDaily "20260201.md",
       dirHas p.2.weekly "2026-W05.md")) = .ok (1, 7, false, true, true) ∧
    c1now - PROTECTED_RECENT_DAYS * 86400 < (c1day - 1) * 86400 := by
  refine ⟨by rfl, by decide⟩

/-! ## Claim theorems: emergency compaction (C9) -/

/-- C9 counterexample: emergency compaction over three daily files dated
2025-12-29..31 — all lying in ISO week (2026, 1) — creates the forced
weekly summary at `2025-W01.md`, not at the files' actual ISO week
identity `2026-W01.md`: the source keys the summary by
`first_date.year` (the *calendar* year of the newest chosen file)
together with the ISO week number. -/
theorem c9_counterexample :
    isoYearWeek (daysFromCivil 2025 12 29) = (2026, 1) ∧
    isoYearWeek (daysFromCivil 2025 12 31) = (2026, 1) ∧
    (emergency_cleanup c9user c9now llmK).toOption.map (fun p =>
      (p.2, dirHas p.1.weekly (weekly_file_name 2026 1),
       dirHas p.1.weekly "2025-W01.md")) = some (true, false, true) := by
  refine ⟨by decide, by decide, by rfl⟩

/-! ## Emergency-compaction lemmas and theorems (C9) -/

theorem mem_insertAscBy {α : Type} (key : α → String) (x a : α)
    (l : List α) : a ∈ insertAscBy key x l ↔ a = x ∨ a ∈ l := by
  induction l with
  | nil => simp [insertAscBy]
  | cons y ys ih =>
    unfold insertAscBy
    split
    · rw [List.mem_cons, ih, List.mem_cons]
      tauto
    · simp [List.mem_cons]

theorem mem_sortAscBy {α : Type} (key : α → String) (a : α) (l : List α) :
    a ∈ sortAscBy key l ↔ a ∈ l := by
  induction l with
  | nil => simp [sortAscBy]
  | cons y ys ih =>
    unfold sortAscBy
    rw [mem_insertAscBy]
    simp only [List.mem_cons, ih]

theorem headD_mem {α : Type} (l : List α) (d : α) (h : l ≠ []) :
    l.headD d ∈ l := by
  cases l with
  | nil => exact absurd rfl h
  | cons a as => simp [List.headD]

theorem getLastD_mem {α : Type} (l : List α) (d : α) (h : l ≠ []) :
    l.getLastD d ∈ l := by
  induction l generalizing d with
  | nil => exact absurd rfl h
  | cons a as ih =>
    cases has : as with
    | nil => simp [List.getLastD]
    | cons b bs =>
      rw [List.getLastD_cons]
      right
      subst has
      exact ih a (by simp)

theorem create_weekly_summary_ok (files : List FileEnt) (weekDir : Dir)
    (outName : String) (wn yr : Int) (llm : Llm) (now : Int)
    (hne : files ≠ [])
    (hvalid : ∀ f ∈ files, (parseDailyStem (stemOf f.name)).isSome = true)
    (hllm : ∀ p, (llm p).isOk = true) :
    ∃ content, create_weekly_summary files weekDir outName wn yr llm now =
      .ok (dirWrite weekDir outName content now, true) := by
  unfold create_weekly_summary
  have hE : ¬ files.isEmpty = true := by
    simp [List.isEmpty_iff]
    exact hne
  rw [if_neg hE]
  have hdc : ¬ ((sortAscBy (fun f => f.name) files).filterMap (fun f =>
      match parseDailyStem (stemOf f.name) with
      | none => none
      | some z => some ("## " ++ dateDMY z ++ "\n\n" ++ f.content ++ "\n\n---\n"))).isEmpty = true := by
    simp only [List.isEmpty_iff, List.filterMap_eq_nil_iff]
    intro hall
    obtain ⟨x, hx⟩ := List.exists_mem_of_ne_nil files hne
    have hxs : x ∈ sortAscBy (fun f => f.name) files := (mem_sortAscBy _ _ _).mpr hx
    have := hall x hxs
    obtain ⟨z, hz⟩ := Option.isSome_iff_exists.mp (hvalid x hx)
    rw [hz] at this
    cases this
  rw [if_neg hdc]
  obtain ⟨z1, hz1⟩ := Option.isSome_iff_exists.mp
    (hvalid (files.headD default) (headD_mem files default hne))
  obtain ⟨z2, hz2⟩ := Option.isSome_iff_exists.mp
    (hvalid (files.getLastD default) (getLastD_mem files default hne))
  rw [hz1, hz2]
  dsimp only
  cases hl : llm (WEEKLY_SUMMARY_PROMPT (dateDMY z1) (dateDMY z2) wn
      (joinSep "\n" ((sortAscBy (fun f => f.name) files).filterMap (fun f =>
        match parseDailyStem (stemOf f.name) with
        | none => none
        | some z => some ("## " ++ dateDMY z ++ "\n\n" ++ f.content ++ "\n\n---\n"))))) with
  | error e =>
    have := hllm (WEEKLY_SUMMARY_PROMPT (dateDMY z1) (dateDMY z2) wn
      (joinSep "\n" ((sortAscBy (fun f => f.name) files).filterMap (fun f =>
        match parseDailyStem (stemOf f.name) with
        | none => none
        | some z => some ("## " ++ dateDMY z ++ "\n\n" ++ f.content ++ "\n\n---\n")))))
    rw [hl] at this
    cases this
  | ok s =>
    exact ⟨_, rfl⟩

theorem create_weekly_summary_llm_error (files : List FileEnt) (weekDir : Dir)
    (outName : String) (wn yr : Int) (llm : Llm) (now : Int)
    (hne : files ≠ [])
    (hvalid : ∀ f ∈ files, (parseDailyStem (stemOf f.name)).isSome = true)
    (hllm : ∀ p, llm p = .error ()) :
    create_weekly_summary files weekDir outName wn yr llm now =
      .ok (weekDir, false) := by
  unfold create_weekly_summary
  have hE : ¬ files.isEmpty = true := by
    simp [List.isEmpty_iff]
    exact hne
  rw [if_neg hE]
  have hdc : ¬ ((sortAscBy (fun f => f.name) files).filterMap (fun f =>
      match parseDailyStem (stemOf f.name) with
      | none => none
      | some z => some ("## " ++ dateDMY z ++ "\n\n" ++ f.content ++ "\n\n---\n"))).isEmpty = true := by
    simp only [List.isEmpty_iff, List.filterMap_eq_nil_iff]
    intro hall
    obtain ⟨x, hx⟩ := List.exists_mem_of_ne_nil files hne
    have hxs : x ∈ sortAscBy (fun f => f.name) files := (mem_sortAscBy _ _ _).mpr hx
    have := hall x hxs
    obtain ⟨z, hz⟩ := Option.isSome_iff_exists.mp (hvalid x hx)
    rw [hz] at this
    cases this
  rw [if_neg hdc]
  obtain ⟨z1, hz1⟩ := Option.isSome_iff_exists.mp
    (hvalid (files.headD default) (headD_mem files default hne))
  obtain ⟨z2, hz2⟩ := Option.isSome_iff_exists.mp
    (hvalid (files.getLastD default) (getLastD_mem files default hne))
  rw [hz1, hz2]
  dsimp only
  rw [hllm]

theorem arch_weekly_eq (st : UserFS) (n : String) :
    ((archive_file st Tier.daily n).1).weekly = st.weekly := by
  unfold archive_file
  cases dirFind (sourceDir st Tier.daily) n <;> rfl

theorem arch_daily_self (st : UserFS) (n : String) :
    dirHas ((archive_file st Tier.daily n).1).daily n = false := by
  unfold archive_file
  cases h : dirFind (sourceDir st Tier.daily) n with
  | none =>
    dsimp only
    exact dirHas_false_of_find_none h
  | some f =>
    dsimp only [setSourceDir, setArchDir, sourceDir, archDir]
    exact dirHas_remove_self _ _

theorem arch_daily_keep_absent (st : UserFS) (n' nm : String)
    (h : dirHas st.daily nm = false) :
    dirHas ((archive_file st Tier.daily n').1).daily nm = false := by
  unfold archive_file
  cases hf : dirFind (sourceDir st Tier.daily) n' with
  | none => exact h
  | some f =>
    dsimp only [setSourceDir, setArchDir, sourceDir, archDir]
    by_cases he : nm = n'
    · subst he
      exact dirHas_remove_self _ _
    · unfold dirHas
      rw [dirFind_remove_other _ _ _ he]
      unfold dirHas at h
      cases hp : st.daily.present
      · simp
      · rw [if_pos rfl]
        exact h

theorem arch_arch_keep (st : UserFS) (n' nm : String)
    (h : dirHas st.archDaily nm = true) :
    dirHas ((archive_file st Tier.daily n').1).archDaily nm = true := by
  unfold archive_file
  cases hf : dirFind (sourceDir st Tier.daily) n' with
  | none => exact h
  | some f =>
    dsimp only [setSourceDir, setArchDir, sourceDir, archDir]
    by_cases he : nm = n'
    · subst he
      exact dirHas_write_self _ _ _ _
    · rw [dirHas_write_other _ _ _ _ _ he]
      exact h

theorem arch_moves (st : UserFS) (nm : String)
    (h : dirHas st.daily nm = true ∨ dirHas st.archDaily nm = true) :
    dirHas ((archive_file st Tier.daily nm).1).archDaily nm = true := by
  unfold archive_file
  cases hf : dirFind (sourceDir st Tier.daily) nm with
  | none =>
    dsimp only
    rcases h with h | h
    · have hss : dirHas (sourceDir st Tier.daily) nm = true := h
      exact absurd (dirHas_false_of_find_none hf) (by rw [hss]; simp)
    · exact h
  | some f =>
    dsimp only [setSourceDir, setArchDir, sourceDir, archDir]
    exact dirHas_write_self _ _ _ _

theorem arch_disj_keep (st : UserFS) (n' nm : String)
    (h : dirHas st.daily nm = true ∨ dirHas st.archDaily nm = true) :
    dirHas ((archive_file st Tier.daily n').1).daily nm = true ∨
      dirHas ((archive_file st Tier.daily n').1).archDaily nm = true := by
  by_cases he : nm = n'
  · subst he
    exact Or.inr (arch_moves st nm h)
  · unfold archive_file
    cases hf : dirFind (sourceDir st Tier.daily) n' with
    | none => exact h
    | some f =>
      dsimp only [setSourceDir, setArchDir, sourceDir, archDir]
      rcases h with h | h
      · left
        unfold dirHas
        rw [dirFind_remove_other _ _ _ he, dir_present_of_has h, if_pos rfl]
        exact h
      · right
        rw [dirHas_write_other _ _ _ _ _ he]
        exact h

theorem fold_arch_weekly_eq (l : List FileEnt) :
    ∀ st : UserFS,
      (l.foldl (fun st f => (archive_file st Tier.daily f.name).1) st).weekly =
        st.weekly := by
  induction l with
  | nil => intro st; rfl
  | cons a as ih =>
    intro st
    simp only [List.foldl_cons]
    rw [ih, arch_weekly_eq]

theorem fold_arch_daily_keep_absent (l : List FileEnt) :
    ∀ (st : UserFS) (nm : String), dirHas st.daily nm = false →
      dirHas (l.foldl (fun st f => (archive_file st Tier.daily f.name).1)
          st).daily nm = false := by
  induction l with
  | nil => intro st nm h; exact h
  | cons a as ih =>
    intro st nm h
    simp only [List.foldl_cons]
    exact ih _ nm (arch_daily_keep_absent st a.name nm h)

theorem fold_arch_arch_keep (l : List FileEnt) :
    ∀ (st : UserFS) (nm : String), dirHas st.archDaily nm = true →
      dirHas (l.foldl (fun st f => (archive_file st Tier.daily f.name).1)
          st).archDaily nm = true := by
  induction l with
  | nil => intro st nm h; exact h
  | cons a as ih =>
    intro st nm h
    simp only [List.foldl_cons]
    exact ih _ nm (arch_arch_keep st a.name nm h)

theorem fold_archives (l : List FileEnt) :
    ∀ (st : UserFS) (f : FileEnt), f ∈ l →
      (dirHas st.daily f.name = true ∨ dirHas st.archDaily f.name = true) →
      dirHas (l.foldl (fun st f => (archive_file st Tier.daily f.name).1)
          st).daily f.name = false ∧
      dirHas (l.foldl (fun st f => (archive_file st Tier.daily f.name).1)
          st).archDaily f.name = true := by
  induction l with
  | nil => intro st f hf; exact absurd hf (List.not_mem_nil f)
  | cons a as ih =>
    intro st f hf hdisj
    simp only [List.foldl_cons]
    by_cases he : f.name = a.name
    · rw [he] at hdisj ⊢
      constructor
      · exact fold_arch_daily_keep_absent as _ _ (arch_daily_self st a.name)
      · exact fold_arch_arch_keep as _ _ (arch_moves st a.name hdisj)
    · have hmem : f ∈ as := by
        rcases List.mem_cons.mp hf with hfe | hfe
        · exact absurd (congrArg FileEnt.name hfe) he
        · exact hfe
      exact ih _ f hmem (arch_disj_keep st a.name f.name hdisj)

theorem mem_list_daily_files (u : UserFS) (f : FileEnt)
    (h : f ∈ list_daily_files u none none) : dirHas u.daily f.name = true := by
  unfold list_daily_files at h
  by_cases hp : u.daily.present
  · rw [if_neg (by simp [hp])] at h
    simp only [Option.isSome_none, Bool.or_false, Bool.false_eq_true,
      if_false] at h
    rw [List.mem_reverse, mem_sortAscBy] at h
    have hmem : f ∈ dirFiles u.daily := (List.mem_filter.mp h).1
    unfold dirHas dirFind
    rw [List.find?_isSome]
    exact ⟨f, hmem, by simp⟩
  · rw [if_pos (by simp [hp])] at h
    exact absurd h (List.not_mem_nil f)

theorem head?_mem_local {α : Type} {l : List α} {a : α} (h : l.head? = some a) :
    a ∈ l := by
  cases l with
  | nil => cases h
  | cons x xs =>
    injection h with he
    rw [← he]
    exact List.mem_cons_self x xs

theorem ne_nil_of_head?_local {α : Type} {l : List α} {a : α}
    (h : l.head? = some a) : l ≠ [] := by
  cases l with
  | nil => cases h
  | cons x xs => simp

theorem mem_pyLastSlice {α : Type} {l : List α} {k : Nat} {a : α}
    (h : a ∈ pyLastSlice l k) : a ∈ l := by
  unfold pyLastSlice at h
  split at h
  · exact h
  · exact List.mem_of_mem_drop h

/-- C9 (amended): with fewer than 3 daily files, emergency compaction
does nothing and reports failure.  With at least 3 (and parseable
stems), it takes the oldest `min 5` daily files, *forces* a weekly
summary from them — no age or protected-window condition appears
anywhere on this path — keyed by the calendar year and ISO week number
of the newest of the chosen files (`first_date.year`,
`isocalendar()[1]`), and archives exactly the chosen files, but only
when the summary build succeeds: when the completion service raises,
the state is returned unchanged with `False`. -/
theorem c9_amended_emergency (u : UserFS) (now : Int) (llm : Llm) :
    ((list_daily_files u none none).length < 3 →
      emergency_cleanup u now llm = .ok (u, false)) ∧
    (∀ f0 z0, ¬ (list_daily_files u none none).length < 3 →
      (pyLastSlice (list_daily_files u none none) 5).head? = some f0 →
      parseDailyStem (stemOf f0.name) = some z0 →
      (∀ f ∈ pyLastSlice (list_daily_files u none none) 5,
        (parseDailyStem (stemOf f.name)).isSome = true) →
      (∀ p, (llm p).isOk = true) →
      ∃ u', emergency_cleanup u now llm = .ok (u', true) ∧
        dirHas u'.weekly
          (weekly_file_name (civilFromDays z0).1 (isoYearWeek z0).2) = true ∧
        ∀ f ∈ pyLastSlice (list_daily_files u none none) 5,
          dirHas u'.daily f.name = false ∧ dirHas u'.archDaily f.name = true) ∧
    (∀ f0 z0, ¬ (list_daily_files u none none).length < 3 →
      (pyLastSlice (list_daily_files u none none) 5).head? = some f0 →
      parseDailyStem (stemOf f0.name) = some z0 →
      (∀ f ∈ pyLastSlice (list_daily_files u none none) 5,
        (parseDailyStem (stemOf f.name)).isSome = true) →
      (∀ p, llm p = .error ()) →
      emergency_cleanup u now llm = .ok (u, false)) := by
  refine ⟨fun h3 => ?_, fun f0 z0 hn3 hhead hz0 hvalid hllm => ?_,
    fun f0 z0 hn3 hhead hz0 hvalid hllm => ?_⟩
  · unfold emergency_cleanup
    dsimp only
    rw [if_pos h3]
  · unfold emergency_cleanup
    dsimp only
    rw [if_neg hn3, hhead]
    dsimp only
    rw [hz0]
    dsimp only
    obtain ⟨content, hcw⟩ := create_weekly_summary_ok
      (pyLastSlice (list_daily_files u none none) 5) u.weekly
      (weekly_file_name (civilFromDays z0).1 (isoYearWeek z0).2)
      (isoYearWeek z0).2 (civilFromDays z0).1 llm now
      (ne_nil_of_head?_local hhead) hvalid hllm
    rw [hcw]
    dsimp only
    rw [if_pos rfl]
    refine ⟨_, rfl, ?_, ?_⟩
    · rw [fold_arch_weekly_eq]
      exact dirHas_write_self _ _ _ _
    · intro f hf
      apply fold_archives _ _ f hf
      left
      show dirHas u.daily f.name = true
      exact mem_list_daily_files u f (mem_pyLastSlice hf)
  · unfold emergency_cleanup
    dsimp only
    rw [if_neg hn3, hhead]
    dsimp only
    rw [hz0]
    dsimp only
    rw [create_weekly_summary_llm_error
      (pyLastSlice (list_daily_files u none none) 5) u.weekly
      (weekly_file_name (civilFromDays z0).1 (isoYearWeek z0).2)
      (isoYearWeek z0).2 (civilFromDays z0).1 llm now
      (ne_nil_of_head?_local hhead) hvalid hllm]
    rfl


/-- Witness for `c9_amended_emergency` at the concrete year-boundary
state (three files, none satisfying any age trigger). -/
theorem c9_amended_emergency_witness :
    ∃ u', emergency_cleanup c9user c9now llmK = .ok (u', true) ∧
      dirHas u'.weekly
        (weekly_file_name (civilFromDays (daysFromCivil 2025 12 31)).1
          (isoYearWeek (daysFromCivil 2025 12 31)).2) = true ∧
      ∀ f ∈ pyLastSlice (list_daily_files c9user none none) 5,
        dirHas u'.daily f.name = false ∧ dirHas u'.archDaily f.name = true :=
  (c9_amended_emergency c9user c9now llmK).2.1 ⟨"20251231.md", "C", 0⟩
    (daysFromCivil 2025 12 31) (by decide) (by decide) (by decide)
    (by decide) (fun p => rfl)

/-- Bounds of `detect_explicit_markers` (0–2 points). -/
theorem detect_explicit_markers_bounds (t : String) :
    0 ≤ detect_explicit_markers t ∧ detect_explicit_markers t ≤ 2 := by
  unfold detect_explicit_markers
  dsimp only
  split_ifs <;> omega

/-- The rule-based fallback produces in-bound sub-scores and a total that
is exactly their sum. -/
theorem fallback_score_props (snippet : String) (ctx : ScoreCtx) :
    0 ≤ (fallback_score snippet ctx).frequency_points ∧
    (fallback_score snippet ctx).frequency_points ≤ 3 ∧
    0 ≤ (fallback_score snippet ctx).recency_points ∧
    (fallback_score snippet ctx).recency_points ≤ 2 ∧
    0 ≤ (fallback_score snippet ctx).explicit_points ∧
    (fallback_score snippet ctx).explicit_points ≤ 2 ∧
    0 ≤ (fallback_score snippet ctx).relevance_points ∧
    (fallback_score snippet ctx).relevance_points ≤ 3 ∧
    (fallback_score snippet ctx).score =
      (fallback_score snippet ctx).frequency_points +
      (fallback_score snippet ctx).recency_points +
      (fallback_score snippet ctx).explicit_points +
      (fallback_score snippet ctx).relevance_points := by
  obtain ⟨h1, h2⟩ := detect_explicit_markers_bounds snippet
  unfold fallback_score
  dsimp only
  split_ifs <;> simp_all

/-- C3: for every snippet, context and completion-service outcome
(success, exception, malformed or out-of-bound output), the result of
`score_conversation` has its total in [0,10] and each sub-score within
its documented bound (frequency 0–3, recency 0–2, explicit 0–2,
relevance 0–3).  The embedded function is total over all outcomes,
mirroring that the source never lets an exception escape to the caller. -/
theorem c3_score_bounds (snippet : String) (context : ScoreCtx)
    (o : Except Unit RawScore) :
    (0 ≤ (score_conversation snippet context o).score ∧
      (score_conversation snippet context o).score ≤ 10) ∧
    (0 ≤ (score_conversation snippet context o).frequency_points ∧
      (score_conversation snippet context o).frequency_points ≤ 3) ∧
    (0 ≤ (score_conversation snippet context o).recency_points ∧
      (score_conversation snippet context o).recency_points ≤ 2) ∧
    (0 ≤ (score_conversation snippet context o).explicit_points ∧
      (score_conversation snippet context o).explicit_points ≤ 2) ∧
    (0 ≤ (score_conversation snippet context o).relevance_points ∧
      (score_conversation snippet context o).relevance_points ≤ 3) := by
  have hf := fallback_score_props snippet context
  unfold score_conversation
  cases o with
  | error e =>
    split
    · simp
    · dsimp only; omega
  | ok raw =>
    split
    · simp
    · dsimp only
      split
      · next hval =>
        unfold validate_score at hval
        simp only [Bool.and_eq_true, decide_eq_true_eq] at hval
        dsimp only
        omega
      · omega

/-- C7 counterexample: a completion-service reply whose fields are all
present and individually in bounds — `score = 10` with all four
sub-scores 0 — passes `_validate_score` and is returned as-is, so the
returned total does not equal the sum of the sub-scores. -/
theorem c7_counterexample :
    (score_conversation "hallo" ⟨none, none, none⟩
        (.ok ⟨some 10, some 0, some 0, some 0, some 0, some "r", some "k"⟩)).score ≠
      (score_conversation "hallo" ⟨none, none, none⟩
          (.ok ⟨some 10, some 0, some 0, some 0, some 0, some "r", some "k"⟩)).frequency_points +
        (score_conversation "hallo" ⟨none, none, none⟩
            (.ok ⟨some 10, some 0, some 0, some 0, some 0, some "r", some "k"⟩)).recency_points +
        (score_conversation "hallo" ⟨none, none, none⟩
            (.ok ⟨some 10, some 0, some 0, some 0, some 0, some "r", some "k"⟩)).explicit_points +
        (score_conversation "hallo" ⟨none, none, none⟩
            (.ok ⟨some 10, some 0, some 0, some 0, some 0, some "r", some "k"⟩)).relevance_points := by
  decide

/-- C7 (amended): the total equals the sum of the four sub-scores on the
transient-fact short-circuit path and on the fallback path (completion
service raised, or its output failed `_validate_score`); on the
successfully validated LLM path the validator checks only the individual
bounds, so the sum relation is not guaranteed there. -/
theorem c7_amended_sum (snippet : String) (ctx : ScoreCtx)
    (o : Except Unit RawScore)
    (h : is_temporary_fact snippet = true ∨
      (match o with
       | .error _ => True
       | .ok raw => validate_score raw = false)) :
    (score_conversation snippet ctx o).score =
      (score_conversation snippet ctx o).frequency_points +
      (score_conversation snippet ctx o).recency_points +
      (score_conversation snippet ctx o).explicit_points +
      (score_conversation snippet ctx o).relevance_points := by
  have hf := fallback_score_props snippet ctx
  unfold score_conversation
  rcases h with h | h
  · simp [h]
  · cases o with
    | error e =>
      split
      · simp
      · dsimp only; omega
    | ok raw =>
      split
      · simp
      · dsimp only
        simp only at h
        simp [h]
        omega

/-- Witness for `c7_amended_sum` at a concrete fallback-path input. -/
theorem c7_amended_sum_witness :
    (score_conversation "hallo" ⟨some 5, none, some 3⟩ (.error ())).score =
      (score_conversation "hallo" ⟨some 5, none, some 3⟩ (.error ())).frequency_points +
      (score_conversation "hallo" ⟨some 5, none, some 3⟩ (.error ())).recency_points +
      (score_conversation "hallo" ⟨some 5, none, some 3⟩ (.error ())).explicit_points +
      (score_conversation "hallo" ⟨some 5, none, some 3⟩ (.error ())).relevance_points :=
  c7_amended_sum "hallo" ⟨some 5, none, some 3⟩ (.error ()) (Or.inr trivial)

/-- C8: a snippet matching the transient-fact pattern set is scored 0 in
total and in all four sub-scores, identically for every
completion-service outcome — the result does not depend on the service,
mirroring that the source short-circuits before invoking it. -/
theorem c8_transient_fact_zero (snippet : String) (ctx : ScoreCtx)
    (h : is_temporary_fact snippet = true) :
    ∀ o : Except Unit RawScore,
      score_conversation snippet ctx o =
        { score := 0, frequency_points := 0, recency_points := 0,
          explicit_points := 0, relevance_points := 0,
          reasoning := "Temporäre Fakten-Anfrage (TV, Wetter, etc.)",
          retention_recommendation := "Nach 24h entfernen" } := by
  intro o
  unfold score_conversation
  simp [h]

theorem strMkLen (l : List Char) : (String.mk l).length = l.length := rfl

theorem c5big_len : c5big.length = 260000 := by
  rw [c5big, strMkLen, List.length_replicate]

theorem c5std : (load_standard_context c5user 0).total_tokens = 65000 := by
  unfold load_standard_context c5user emptyUserFS list_daily_files
  simp only [Dir.empty]
  norm_num [c5big_len, TOKEN_ESTIMATION_FACTOR]

theorem c5ctxeq : load_context c5user "erzähl mir von unserem projekt" [] 0 =
    load_standard_context c5user 0 := by
  unfold load_context
  rw [if_pos]
  rw [c5std]
  norm_num [MAX_MEMORY_TOKENS_GLM4]

/-- The historical loader never adds more than `mt - l` tokens on top of
the context it is given. -/
theorem load_hist_total_le (u : UserFS) (paths : List String) :
    ∀ (ctx : LoadCtx) (mt l : Int), l ≤ mt →
      (load_historical_files u paths ctx mt l).total_tokens ≤
        ctx.total_tokens + (mt - l) := by
  induction paths with
  | nil => intro ctx mt l h; simp [load_historical_files]; omega
  | cons p rest ih =>
    intro ctx mt l h
    unfold load_historical_files
    cases hres : resolveRel u p with
    | none => simpa using ih ctx mt l h
    | some content =>
      simp only
      have hest : (0 : Int) ≤ (content.length : Int) / TOKEN_ESTIMATION_FACTOR :=
        Int.ediv_nonneg (Int.ofNat_nonneg _) (by norm_num [TOKEN_ESTIMATION_FACTOR])
      split
      · omega
      · next hgt =>
        have hle : l + (content.length : Int) / TOKEN_ESTIMATION_FACTOR ≤ mt := by
          omega
        have := ih { ctx with
            additional_context := ctx.additional_context ++ [⟨p, content⟩]
            files_loaded := ctx.files_loaded ++ [p]
            total_tokens := ctx.total_tokens + (content.length : Int) / TOKEN_ESTIMATION_FACTOR }
          mt (l + (content.length : Int) / TOKEN_ESTIMATION_FACTOR) hle
        simp only at this
        omega

/-- Every file the historical loader adds is included whole: its recorded
content is exactly the file's full content. -/
theorem load_hist_whole (u : UserFS) (paths : List String) :
    ∀ (ctx : LoadCtx) (mt l : Int),
      (∀ e ∈ ctx.additional_context, resolveRel u e.file = some e.content) →
      ∀ e ∈ (load_historical_files u paths ctx mt l).additional_context,
        resolveRel u e.file = some e.content := by
  induction paths with
  | nil => intro ctx mt l h; simpa [load_historical_files] using h
  | cons p rest ih =>
    intro ctx mt l h
    unfold load_historical_files
    cases hres : resolveRel u p with
    | none => simpa using ih ctx mt l h
    | some content =>
      simp only
      split
      · exact h
      · apply ih
        intro e he
        simp only [List.mem_append, List.mem_singleton] at he
        rcases he with he | he
        · exact h e he
        · rw [he]; exact hres

theorem std_addctx_nil (u : UserFS) (now : Int) :
    (load_standard_context u now).additional_context = [] := rfl

/-- C5 counterexample: for a user whose `memory.md` alone is 260000
characters (65000 estimated tokens), `load_context` returns an assembled
context whose estimated token count exceeds the 64000-token budget — the
always-included standard set is loaded unconditionally and never
trimmed, so the claimed unconditional budget bound is false. -/
theorem c5_counterexample :
    64000 <
      (load_context c5user "erzähl mir von unserem projekt" [] 0).total_tokens := by
  rw [c5ctxeq, c5std]
  norm_num

/-- C5 (amended): whenever the always-included standard set fits the
64000-token budget, the assembled context stays within the budget; when
the standard set leaves a remaining budget below the 1000-token floor,
the context is returned exactly as the standard set with no historical
files; and every historical file added is included whole (its content is
the file's full content), the loader stopping before any file that would
exceed the remaining budget.  (Only when the standard set alone already
exceeds the budget can the total exceed it, as the counterexample
shows.) -/
theorem c5_amended_budget (u : UserFS) (q : String) (selected : List String)
    (now : Int) :
    ((load_standard_context u now).total_tokens ≤ MAX_MEMORY_TOKENS_GLM4 →
      (load_context u q selected now).total_tokens ≤ MAX_MEMORY_TOKENS_GLM4) ∧
    (MAX_MEMORY_TOKENS_GLM4 - (load_standard_context u now).total_tokens < 1000 →
      load_context u q selected now = load_standard_context u now) ∧
    (∀ e ∈ (load_context u q selected now).additional_context,
      resolveRel u e.file = some e.content) := by
  have hnil : ∀ e ∈ (load_standard_context u now).additional_context,
      resolveRel u e.file = some e.content := by
    rw [std_addctx_nil]
    intro e he
    exact absurd he (List.not_mem_nil e)
  unfold load_context
  dsimp only
  by_cases hA : MAX_MEMORY_TOKENS_GLM4 - (load_standard_context u now).total_tokens < 1000
  · rw [if_pos hA]
    exact ⟨fun h => h, fun _ => rfl, hnil⟩
  · rw [if_neg hA]
    by_cases hB : (q != "" && decide (q.data.length > 10)) = true
    · rw [if_pos hB]
      refine ⟨?_, fun h => absurd h hA, load_hist_whole u selected _ _ _ hnil⟩
      intro h
      have hb := load_hist_total_le u selected (load_standard_context u now)
        (MAX_MEMORY_TOKENS_GLM4 - (load_standard_context u now).total_tokens) 0
        (by omega)
      omega
    · rw [if_neg hB]
      exact ⟨fun h => h, fun h => absurd h hA, hnil⟩

/-- Witness for `c5_amended_budget`: an empty user tree stays within
budget with a non-trivial query, and the over-budget user of the
counterexample state is returned as its bare standard set. -/
theorem c5_amended_budget_witness :
    (load_context emptyUserFS "was haben wir besprochen" ["daily/x.md"] 0).total_tokens ≤
      MAX_MEMORY_TOKENS_GLM4 ∧
    load_context c5user "was haben wir besprochen" ["daily/x.md"] 0 =
      load_standard_context c5user 0 :=
  ⟨(c5_amended_budget emptyUserFS "was haben wir besprochen" ["daily/x.md"] 0).1
      (by decide),
   (c5_amended_budget c5user "was haben wir besprochen" ["daily/x.md"] 0).2.1
      (by rw [c5std]; norm_num [MAX_MEMORY_TOKENS_GLM4])⟩

/-- C4: with three turns `Frage 1`, `Antwort 1`, `Frage 2` appended in
chronological order to one daily file, `get_context` returns them in
*reverse* chronological order, not the chronological order the claim
(and the repository's own `test_get_context_v2`, which asserts
`messages[0]["content"] == "Frage 1"`) requires: the newest-first file
scan collects each file's turns oldest-first, so the final
`messages.reverse()` flips the within-file order the wrong way. -/
theorem c4_get_context_not_chronological :
    get_context c4sys 12345 10 (c4now + 20) =
      [⟨"user", "Frage 2"⟩, ⟨"assistant", "Antwort 1"⟩, ⟨"user", "Frage 1"⟩] ∧
    get_context c4sys 12345 10 (c4now + 20) ≠
      [⟨"user", "Frage 1"⟩, ⟨"assistant", "Antwort 1"⟩, ⟨"user", "Frage 2"⟩] := by
  constructor
  · decide
  · decide

/-- C10: `reset_user` on a user whose directory does not exist returns
`False` and leaves the whole state (users and backups) unchanged. -/
theorem c10_reset_missing_user (s : Sys) (uid : Nat)
    (username : Option String) (now : Int) (h : getUser s uid = none) :
    reset_user s uid username now = (s, false) := by
  unfold reset_user
  simp [h]

/-- Witness for `c10_reset_missing_user` on an empty users root. -/
theorem c10_reset_missing_user_witness :
    reset_user ⟨[], []⟩ 7 none 0 = (⟨[], []⟩, false) :=
  c10_reset_missing_user ⟨[], []⟩ 7 none 0 rfl

/-- Witness for `c8_transient_fact_zero`: a TV-schedule query with a
high-frequency context still scores 0 on every path. -/
theorem c8_transient_fact_zero_witness :
    score_conversation "was läuft heute im tv" ⟨some 100, none, some 1⟩
        (.ok ⟨some 9, some 3, some 2, some 2, some 2, some "r", some "k"⟩) =
      { score := 0, frequency_points := 0, recency_points := 0,
        explicit_points := 0, relevance_points := 0,
        reasoning := "Temporäre Fakten-Anfrage (TV, Wetter, etc.)",
        retention_recommendation := "Nach 24h entfernen" } :=
  c8_transient_fact_zero "was läuft heute im tv" ⟨some 100, none, some 1⟩
    (by decide)
    (.ok ⟨some 9, some 3, some 2, some 2, some 2, some "r", some "k"⟩)

end CB
